import Mathlib

/-!
# MultiBoot2 boot menu (`MultiBoot2/new_wpl_all.c`)

A shallow embedding of the U-Boot command `wpl_prepare` and of the functions it is
made of: `check_usb_storage`, `gather_partition_info`, `display_menu`,
`sleepy_check`, `master_sleep`, `check_for_filename` and `wpl_cmd`.

* C strings are lists of byte values (`CStr`), without the terminating NUL.
* The array `os_list[16]` is modelled byte by byte (`Memory`): `strcpy` writes a
  string and its NUL from the address it is given, whatever the size of the field,
  and an entry is read back as the strings that start at the addresses of its two
  fields. The capacities of the scratch buffers `dev_id` and `buffer` are not
  part of the model.
* The services of U-Boot that the file calls (`run_command`, `fs_set_blk_dev`,
  `ext4_read_superblock`, `ext4fs_exists`, `tstc`/`getc`) are answers read from a
  `World`; every call is recorded in the `trace` of the `State`.
* `while (1)` in `display_menu` is bounded by a number of rounds (`fuel`); the
  `for` loops keep their guards and get a fuel that their guard never exhausts.
-/

namespace MultiBoot2

set_option maxRecDepth 100000

/-! ## C strings and the library routines used by the file

`sprintf`, `simple_strtol` and the `ctype` tests belong to U-Boot, not to the file;
they are written out here as U-Boot defines them. -/

/-- A C string: the bytes before the terminating NUL. -/
abbrev CStr := List Nat

/-- The bytes of a string literal. -/
def cstr (s : String) : CStr := s.data.map Char.toNat

/-- Conversion to a 32-bit `int` / `long` (two's complement). -/
def to_int (v : Int) : Int :=
  if v % 4294967296 < 2147483648 then v % 4294967296 else v % 4294967296 - 4294967296

/-- Digits of an unsigned number in the given base, lower case (`%u`, `%x`). -/
def fmt_u (base : Nat) (n : Nat) : CStr := (Nat.toDigits base n).map Char.toNat

/-- The conversion `%d` of `sprintf`/`printf` for an `int`. -/
def fmt_d (v : Int) : CStr :=
  if v < 0 then 45 :: fmt_u 10 (-v).toNat else fmt_u 10 v.toNat

/-- The conversion `%x` of `sprintf`/`printf`: the `int` is printed as an unsigned
32-bit number in lower-case hexadecimal. -/
def fmt_x (v : Int) : CStr := fmt_u 16 (v % 4294967296).toNat

/-- The conversion `%15x`: `%x` padded with spaces on the left to 15 columns. -/
def fmt_15x (v : Int) : CStr :=
  List.replicate (15 - (fmt_x v).length) 32 ++ fmt_x v

/-- The conversion `%s`; U-Boot prints `<NULL>` for a null pointer. -/
def fmt_s (p : Option CStr) : CStr :=
  match p with
  | some t => t
  | none => cstr "<NULL>"

/-- C library `isdigit`. -/
def isdigit (c : Nat) : Bool := decide (48 ≤ c) && decide (c ≤ 57)

/-- C library `islower`. -/
def islower (c : Nat) : Bool := decide (97 ≤ c) && decide (c ≤ 122)

/-- C library `isxdigit`. -/
def isxdigit (c : Nat) : Bool :=
  isdigit c || (decide (97 ≤ c) && decide (c ≤ 102)) || (decide (65 ≤ c) && decide (c ≤ 70))

/-- C library `toupper`. -/
def toupper (c : Nat) : Nat := if islower c then c - 32 else c

/-- The value of a hexadecimal digit as U-Boot's `simple_strtoul` computes it:
`isdigit(*cp) ? *cp-'0' : (islower(*cp) ? toupper(*cp) : *cp)-'A'+10`. -/
def digit_value (c : Nat) : Nat :=
  if isdigit c then c - 48 else (if islower c then toupper c else c) - 65 + 10

/-- The digit loop of `simple_strtoul`:
`while (isxdigit(*cp) && value < base) { result = result*base + value; cp++; }`
in `unsigned long` arithmetic (32 bits on the target). -/
def strtoul_loop (base : Nat) : CStr → Nat → Nat
  | [], result => result
  | c :: cp, result =>
    if isxdigit c && decide (digit_value c < base) then
      strtoul_loop base cp ((result * base + digit_value c) % 4294967296)
    else result

/-- U-Boot `simple_strtoul(cp, NULL, base)` (`lib/strto.c`): after a leading `0`,
an `x` followed by a hexadecimal digit switches to base 16 and base 0 becomes 8;
otherwise base 0 becomes 10; then the digit loop runs. -/
def simple_strtoul (cp : CStr) (base : Nat) : Nat :=
  match cp with
  | 48 :: cp1 =>
    if cp1.head? = some 120 ∧ (cp1.get? 1).map isxdigit = some true then
      strtoul_loop 16 (cp1.drop 1) 0
    else strtoul_loop (if base = 0 then 8 else base) cp1 0
  | _ => strtoul_loop (if base = 0 then 10 else base) cp 0

/-- U-Boot `simple_strtol(cp, NULL, base)`: a leading `-` negates. -/
def simple_strtol (cp : CStr) (base : Nat) : Int :=
  match cp with
  | 45 :: rest => to_int (-(simple_strtoul rest base : Int))
  | _ => to_int (simple_strtoul cp base)

/-! ## The environment of the program -/

/-- One call of a U-Boot service, as recorded in the trace. -/
inductive Event where
  | mdelay (ms : Nat)
  | printf (text : CStr)
  | run_command (cmd : CStr)
  | setenv (name value : CStr)
  | fs_set_blk_dev (ifname dev_id : CStr)
  | ext4_read_superblock
  | ext4fs_exists (filename : CStr)
  | tstc
  | getc
  deriving DecidableEq, Repr

/-- The answers of the services the program consumes. -/
structure World where
  /-- status of the n-th run of the command `usb storage` (n = 0, 1, ...) -/
  usb_storage : Nat → Int
  /-- status of every other command that returns (`usb reset`, `cls`, `fatload ...`) -/
  run_command : CStr → Int
  /-- status returned by the command `bootz ...`, `none` when it transfers control
  to the kernel and never returns -/
  bootz : Option Int
  /-- status of `fs_set_blk_dev("usb", dev_id, FS_TYPE_EXT)`, 0 on success -/
  fs_set_blk_dev : CStr → Int
  /-- result of `ext4_read_superblock` on the device selected by `dev_id`,
  non-zero on success -/
  ext4_read_superblock : CStr → Int
  /-- the string at `sblock.volume_name` after the superblock of `dev_id` was read:
  the bytes from the start of the 16-byte field to the first NUL, 16 bytes or more
  when the label fills its field -/
  volume_name : CStr → CStr
  /-- result of `ext4fs_exists(filename)` on the device selected by `dev_id` -/
  ext4fs_exists : CStr → CStr → Int
  /-- the console: what the n-th poll finds, `none` when `tstc()` is false and
  `some c` when `tstc()` is true and `getc()` then returns `c` -/
  console : Nat → Option Int

/-- The mutable state threaded through the program. -/
structure State where
  /-- number of console polls made so far -/
  polls : Nat
  /-- the environment variables (`getenv`/`setenv`) -/
  env : CStr → Option CStr
  /-- the calls made so far, oldest first -/
  trace : List Event

/-- Record one call. -/
def State.log (s : State) (e : Event) : State :=
  { s with trace := s.trace ++ [e] }

/-- An entry `typedef struct { char display_string[16]; char boot_partition[12]; }
os_liste;` as it is read: the strings found at the addresses of its two fields. -/
structure os_liste where
  display_string : CStr
  boot_partition : CStr
  deriving DecidableEq, Repr

/-- How a run of `wpl_cmd` ends. -/
inductive Outcome where
  /-- `wpl_cmd` returned this status to its caller -/
  | returned (rc : Int)
  /-- `bootz` transferred control to the kernel -/
  | booted
  /-- `display_menu` was still looping when the bound on rounds was reached -/
  | looping
  deriving DecidableEq, Repr

/-! ## The functions of `new_wpl_all.c` -/

/-- `sleepy_check`: sleep for 100 ms, then return the character waiting on the
console, or 0 when there is none. -/
def sleepy_check (w : World) (s : State) : Int × State :=
  let s1 := (s.log (Event.mdelay 100)).log Event.tstc
  match w.console s.polls with
  | some c => (c, { (s1.log Event.getc) with polls := s.polls + 1 })
  | none => (0, { s1 with polls := s.polls + 1 })

/-- The keystroke normalisation of `master_sleep`:
`if (rc == ' ' || rc == '\r') rc = '1';`. -/
def normalize (rc : Int) : Int := if rc = 32 ∨ rc = 13 then 49 else rc

/-- The loop `for(j = 1; j < 200; j++)` of `master_sleep`, from the iteration `j`
with the countdown value `k` and the last poll result `rc`. -/
def master_sleep_loop (w : World) : Nat → Nat → Int → Int → State → Int × State
  | 0, _, _, rc, s => (rc, s)
  | fuel + 1, j, k, rc, s =>
    if j < 200 then
      let r := sleepy_check w s
      let rc1 := normalize r.1
      if rc1 > 32 then (rc1, r.2)
      else if j % 10 = 0 then
        master_sleep_loop w fuel (j + 1) (k - 1) rc1
          (r.2.log (Event.printf (cstr "booting in " ++ fmt_d k ++ cstr " seconds\r")))
      else master_sleep_loop w fuel (j + 1) k rc1 r.2
    else (rc, s)

/-- `master_sleep`: poll the console until a character above the space arrives
(space and carriage return count as `'1'`) or the loop runs out. -/
def master_sleep (w : World) (s : State) : Int × State :=
  master_sleep_loop w 200 1 19 0 s

/-- The menu lines `printf("%15x %s\n", i + 1, os_list[i].display_string)` for
`i = 0 .. len_os_liste - 1`. -/
def menu_lines (len_os_liste : Int) (os_list : Nat → os_liste) : List Event :=
  (List.range len_os_liste.toNat).map fun (i : Nat) =>
    Event.printf (fmt_15x ((i : Int) + 1) ++ cstr " " ++ (os_list i).display_string ++ cstr "\n")

/-- The output of `display_menu` at the start of a round: the heading, the menu
lines and the prompt. -/
def render_menu (len_os_liste : Int) (os_list : Nat → os_liste) (s : State) : State :=
  { s with
    trace := s.trace ++ [Event.printf (cstr "Select an Operating System to boot ...\n\n")] ++
      menu_lines len_os_liste os_list ++
      [Event.printf (cstr "Enter selection number ... \n\n")] }

/-- The selection number that `display_menu` parses from the result of
`master_sleep`: `input[0] = (rc == 0) ? '1' : rc; input[1] = 0;` then
`simple_strtol(input, NULL, 16)`. `input` is an array of `unsigned char`. -/
def parse_selection (rc : Int) : Int :=
  let input0 : Nat := ((if rc = 0 then 49 else rc) % 256).toNat
  let input : CStr := if input0 = 0 then [] else [input0]
  to_int (simple_strtol input 16)

/-- `display_menu`: print the list, poll for a key, parse it as a hexadecimal
digit and return it when it lies in `1 .. len_os_liste`; otherwise start again.
`none` when the given number of rounds did not produce a selection. -/
def display_menu (w : World) (len_os_liste : Int) (os_list : Nat → os_liste) :
    Nat → State → Option Int × State
  | 0, s => (none, s)
  | fuel + 1, s =>
    let r := master_sleep w (render_menu len_os_liste os_list s)
    let selection_number := parse_selection r.1
    if 1 ≤ selection_number ∧ selection_number ≤ len_os_liste then
      (some selection_number, r.2)
    else
      display_menu w len_os_liste os_list fuel
        (r.2.log (Event.printf (cstr "Invalid selection, please try again ...\n")))

/-- The loop `while (rc)` of `check_usb_storage`; `n` counts the runs of
`usb storage` made so far. -/
def check_usb_storage_loop (w : World) : Nat → Nat → Int → Int → State → State
  | 0, _, _, _, s => s
  | fuel + 1, n, rc, retry_count, s =>
    if rc ≠ 0 then
      let rc1 := w.usb_storage n
      let s1 := s.log (Event.run_command (cstr "usb storage"))
      if rc1 ≠ 0 then
        let s2 := ((s1.log (Event.mdelay 2000)).log (Event.run_command (cstr "usb reset"))).log
          (Event.printf (cstr "\n\n"))
        if retry_count - 1 = 0 then
          s2.log (Event.printf
            (cstr "Could not find a USB disk after 20 seconds ... arborting!\n\n"))
        else check_usb_storage_loop w fuel (n + 1) rc1 (retry_count - 1) s2
      else check_usb_storage_loop w fuel (n + 1) rc1 retry_count s1
    else s

/-- `check_usb_storage`: run `usb storage` until it succeeds, at most 10 times. -/
def check_usb_storage (w : World) (s : State) : State :=
  check_usb_storage_loop w 11 0 1 10 s

/-- The test of `gather_partition_info`:
`!fs_set_blk_dev("usb", dev_id, FS_TYPE_EXT) && ext4_read_superblock(...)`. -/
def recognized (w : World) (dev_id : CStr) : Bool :=
  decide (w.fs_set_blk_dev dev_id = 0) && decide (w.ext4_read_superblock dev_id ≠ 0)

/-- The selector of partition `i` in the scan: `sprintf(dev_id, "0:%x", i)`. -/
def scan_dev_id (i : Nat) : CStr := cstr "0:" ++ fmt_x i

/-- The Linux name of partition `i` in the scan: `sprintf(dev_id, "/dev/sda%d", i)`. -/
def scan_path (i : Nat) : CStr := cstr "/dev/sda" ++ fmt_d i

/-- The bytes of the array `os_liste os_list[16]` of `wpl_cmd` and of what follows
it in memory, by their offset from the start of the array. An entry takes 28
bytes: `os_list[k].display_string` starts at offset `28 * k` and
`os_list[k].boot_partition` at offset `28 * k + 16`; the array ends at offset
448. -/
abbrev Memory := Nat → Nat

/-- The bytes of a string up to its first NUL: what `strcpy` copies. -/
def c_bytes (src : CStr) : CStr := src.takeWhile fun b => decide (b ≠ 0)

/-- `strcpy(dst, src)`: the bytes of `src` and the terminating NUL are written from
the offset `dst` on; nothing bounds the copy. -/
def strcpy (mem : Memory) (dst : Nat) (src : CStr) : Memory :=
  fun a =>
    if dst ≤ a ∧ a < dst + (c_bytes src).length then (c_bytes src).getD (a - dst) 0
    else if a = dst + (c_bytes src).length then 0
    else mem a

/-- The string that starts at the offset `a`, read for at most `n` bytes. -/
def c_string_upto (mem : Memory) : Nat → Nat → CStr
  | 0, _ => []
  | n + 1, a => if mem a = 0 then [] else mem a :: c_string_upto mem n (a + 1)

/-- The string that starts at the offset `a` of the array: the bytes up to the
first NUL, read no further than the end of the array. -/
def c_string (mem : Memory) (a : Nat) : CStr := c_string_upto mem (448 - a) a

/-- The entry `os_list[k]` as it is read by `%s` and by `check_for_filename`. -/
def os_list_entries (mem : Memory) (k : Nat) : os_liste :=
  { display_string := c_string mem (28 * k)
    boot_partition := c_string mem (28 * k + 16) }

/-- The loop `for(i = 1; i < 16; i++)` of `gather_partition_info`, from the
partition `i` with `index` entries written. -/
def gather_partition_info_loop (w : World) :
    Nat → Nat → Nat → Memory → State → Nat × Memory × State
  | 0, _, index, os_list, s => (index, os_list, s)
  | fuel + 1, i, index, os_list, s =>
    if i < 16 then
      let dev_id := scan_dev_id i
      let s1 := s.log (Event.fs_set_blk_dev (cstr "usb") dev_id)
      let s2 := if w.fs_set_blk_dev dev_id = 0 then s1.log Event.ext4_read_superblock else s1
      if recognized w dev_id then
        -- strcpy(os_list[index].display_string, (const char *)&data->sblock.volume_name);
        let m1 := strcpy os_list (28 * index) (w.volume_name dev_id)
        -- sprintf(dev_id, "/dev/sda%d", i); strcpy(os_list[index].boot_partition, dev_id);
        let m2 := strcpy m1 (28 * index + 16) (scan_path i)
        gather_partition_info_loop w fuel (i + 1) (index + 1) m2 s2
      else gather_partition_info_loop w fuel (i + 1) index os_list s2
    else (index, os_list, s)

/-- `gather_partition_info`: probe the partitions of the USB disk, write one
entry per ext4 file system into `os_list` and return the number of entries. -/
def gather_partition_info (w : World) (os_list : Memory) (s : State) :
    Nat × Memory × State :=
  gather_partition_info_loop w 16 1 0 os_list s

/-- The selector that `check_for_filename` derives from a device path:
`sprintf(dev_id, "0:%x", (int)simple_strtol(device_path + 8, NULL, 10))`. -/
def path_dev_id (device_path : CStr) : CStr :=
  cstr "0:" ++ fmt_x (to_int (simple_strtol (device_path.drop 8) 10))

/-- `check_for_filename`: select the file system of `device_path` and ask whether
`filename` exists in it. -/
def check_for_filename (w : World) (filename device_path : CStr) (s : State) : Int × State :=
  let dev_id := path_dev_id device_path
  let s1 := s.log (Event.fs_set_blk_dev (cstr "usb") dev_id)
  (w.ext4fs_exists dev_id filename, s1.log (Event.ext4fs_exists filename))

/-- `default_kernel`. -/
def default_kernel : CStr := cstr "kernel7.img"

/-- `default_fdt_file`. -/
def default_fdt_file : CStr := cstr "bcm2709-rpi-2-b.dtb"

/-- The command of step 5. -/
def load_fdt_cmd : CStr := cstr "fatload mmc 0:1 $\x7bfdt_addr_r\x7d " ++ default_fdt_file

/-- The command of step 6. -/
def load_kernel_cmd : CStr := cstr "fatload mmc 0:1 $\x7bkernel_addr_r\x7d " ++ default_kernel

/-- The command of step 10. -/
def bootz_cmd : CStr := cstr "bootz $\x7bkernel_addr_r\x7d - $\x7bfdt_addr_r\x7d"

/-- The text of the boot arguments before the root device. -/
def bootargs_head : CStr :=
  cstr ("bcm2708_fb.fbwidth=1920 bcm2708_fb.fbheight=1080 bcm2708_fb.fbdepth=32 " ++
    "bcm2708_fb.fbswap=1 dwc_otg.lpm_enable=0 earlyprintk console=tty1 " ++
    "console=ttyAMA0,115200 rootfstype=ext4 elevator=deadline rootwait rootdelay=5 noinitrd ")

/-- The string that step 7 builds with `sprintf`. -/
def bootargs (boot_partition : CStr) (usb_eth_addr : Option CStr) : CStr :=
  bootargs_head ++ cstr "root=" ++ boot_partition ++ cstr " smsc95xx.macaddr=" ++
    fmt_s usb_eth_addr

/-- Steps 5 to 10 of `wpl_cmd`, for the selection made in the menu. -/
def boot_steps (w : World) (os_list : Nat → os_liste) (usb_eth_addr : Option CStr)
    (selection_number : Int) (s : State) : Outcome × State :=
  -- step 5: load device tree
  let rc := w.run_command load_fdt_cmd
  let s5 := s.log (Event.run_command load_fdt_cmd)
  if rc ≠ 0 then
    (Outcome.returned (-1), s5.log (Event.printf
      (cstr "Could not load " ++ default_fdt_file ++ cstr ", rc=" ++ fmt_d rc ++ cstr "\n")))
  else
    -- step 6: load kernel
    let rc := w.run_command load_kernel_cmd
    let s6 := s5.log (Event.run_command load_kernel_cmd)
    if rc ≠ 0 then
      (Outcome.returned (-1), s6.log (Event.printf
        (cstr "Could not load kernel " ++ default_kernel ++ cstr " rc=" ++ fmt_d rc ++
          cstr "\n")))
    else
      -- step 7: prepare bootargs
      let boot_partition := (os_list (selection_number - 1).toNat).boot_partition
      let buffer := bootargs boot_partition usb_eth_addr
      let s7 : State :=
        { s6 with
          env := fun name => if name = cstr "bootargs" then some buffer else s6.env name
          trace := s6.trace ++ [Event.setenv (cstr "bootargs") buffer,
            Event.printf (cstr "setenv bootargs " ++ buffer ++ cstr "\n"), Event.mdelay 2000] }
      -- step 9: check for existence of /etc/fstab
      let r := check_for_filename w (cstr "/etc/fstab") boot_partition s7
      if r.1 ≠ 1 then
        (Outcome.returned (-1), r.2.log (Event.printf
          (cstr "File /etc/fstab does not exist in partition " ++ boot_partition ++ cstr "\n")))
      else
        -- step 10: boot the loaded kernel
        let s10 := r.2.log (Event.run_command bootz_cmd)
        match w.bootz with
        | none => (Outcome.booted, s10)
        | some rc =>
          if rc ≠ 0 then
            (Outcome.returned (-1), s10.log (Event.printf
              (cstr "Could not boot kernel, rc=" ++ fmt_d rc ++ cstr "\n")))
          else (Outcome.returned 0, s10)

/-- Steps 1 and 2 of `wpl_cmd`: wait for the USB disk and scan its partitions. The
result is the length of the list, the entries of the array as the rest of
`wpl_cmd` reads them, and the state. -/
def wpl_scan (w : World) (os_list : Memory) (s : State) :
    Nat × (Nat → os_liste) × State :=
  -- step 1: check for existence usb disk
  let s1 := check_usb_storage w s
  -- step 2: read partition table
  let g := gather_partition_info w os_list s1
  (g.1, os_list_entries g.2.1, g.2.2)

/-- Steps 3 and 4 of `wpl_cmd`: clear the screen and run the menu on the scanned
list. -/
def wpl_menu (w : World) (fuel : Nat) (os_list : Memory) (s : State) :
    Option Int × State :=
  let g := wpl_scan w os_list s
  -- step 3: cls
  let s3 := g.2.2.log (Event.run_command (cstr "cls"))
  -- step 4: generate menu, return selected menu entry number
  display_menu w g.1 g.2.1 fuel s3

/-- `wpl_cmd`, the command `wpl_prepare`. `os_list` is the content of the local
array before the scan and `fuel` bounds the rounds of the menu. -/
def wpl_cmd (w : World) (fuel : Nat) (os_list : Memory) (s : State) :
    Outcome × State :=
  let usb_eth_addr := s.env (cstr "usbethaddr")
  let m := wpl_menu w fuel os_list s
  match m.1 with
  | none => (Outcome.looping, m.2)
  | some selection_number =>
    boot_steps w (wpl_scan w os_list s).2.1 usb_eth_addr selection_number m.2

/-! ## Vocabulary of the statements -/

/-- A poll result that ends the polling loop: a space, a carriage return or a
character above the space. -/
def qualifying (x : Option Int) : Bool :=
  match x with
  | some c => decide (c = 32) || decide (c = 13) || decide (c > 32)
  | none => false

/-- The value of an ASCII hexadecimal digit. -/
def hex_digit_value (c : Nat) : Option Nat :=
  if 48 ≤ c ∧ c ≤ 57 then some (c - 48)
  else if 97 ≤ c ∧ c ≤ 102 then some (c - 87)
  else if 65 ≤ c ∧ c ≤ 70 then some (c - 55)
  else none

/-- Partition `i` is recognized: it mounts as ext4 and its superblock reads. -/
def partition_recognized (w : World) (i : Nat) : Bool := recognized w (scan_dev_id i)

/-- The recognized partitions among the indices 1..15, in ascending order. -/
def recognized_indices (w : World) : List Nat :=
  (List.range' 1 15).filter (partition_recognized w)

/-- The selectors passed to `fs_set_blk_dev` in a trace, in order. -/
def probes (t : List Event) : List CStr :=
  t.filterMap fun e =>
    match e with
    | Event.fs_set_blk_dev _ dev_id => some dev_id
    | _ => none

/-- The stages of the boot pipeline. -/
inductive Stage where
  | load_descriptor
  | load_kernel
  | set_bootargs
  | check_marker
  | handoff
  deriving DecidableEq, Repr

/-- The stage that a call starts, if any. -/
def stage_of (e : Event) : Option Stage :=
  match e with
  | Event.run_command cmd =>
    if cmd = load_fdt_cmd then some Stage.load_descriptor
    else if cmd = load_kernel_cmd then some Stage.load_kernel
    else if cmd = bootz_cmd then some Stage.handoff
    else none
  | Event.setenv _ _ => some Stage.set_bootargs
  | Event.ext4fs_exists _ => some Stage.check_marker
  | _ => none

/-- The stages started in a trace, in order. -/
def stages (t : List Event) : List Stage := t.filterMap stage_of

/-- The fixed order of the pipeline. -/
def pipeline : List Stage :=
  [Stage.load_descriptor, Stage.load_kernel, Stage.set_bootargs, Stage.check_marker,
    Stage.handoff]

/-- A state at power-up: nothing polled, no variable set, nothing called. -/
def State.init : State := { polls := 0, env := fun _ => none, trace := [] }

/-- An `os_list` array with empty entries. -/
def os_list_blank : Nat → os_liste := fun _ => { display_string := [], boot_partition := [] }

/-- An `os_list` array filled with NUL bytes, and NUL bytes after it. -/
def os_list_zero : Memory := fun _ => 0

/-- A disk whose partitions 1 to 15 are all ext4: the first fourteen carry a one
letter label, and the label field of partition 15 is full and followed by a long
mount point, a string of 60 bytes. -/
def fifteen_partitions : List (Nat × CStr) :=
  (List.range' 1 14).map (fun i => (i, cstr "L")) ++
    [(15, cstr "ABCDEFGHIJKLMNOP/media/operator/external-backup-disk-2016-08")]

/-- A world with the given recognized partitions (index and volume name) and the
given console; every command succeeds, `/etc/fstab` exists everywhere and
`bootz` boots. -/
def World.sample (parts : List (Nat × CStr)) (console : Nat → Option Int) : World where
  usb_storage := fun _ => 0
  run_command := fun _ => 0
  bootz := none
  fs_set_blk_dev := fun d => if (parts.find? fun q => scan_dev_id q.1 = d).isSome then 0 else 1
  ext4_read_superblock := fun _ => 1
  volume_name := fun d =>
    match parts.find? fun q => scan_dev_id q.1 = d with
    | some q => q.2
    | none => []
  ext4fs_exists := fun _ _ => 1
  console := console

/-- The state `s1` continues `s` without starting a stage of the pipeline and
without touching the environment. -/
def Quiet (s s1 : State) : Prop :=
  ∃ l, s1.trace = s.trace ++ l ∧ stages l = [] ∧ s1.env = s.env

/-- A console on which nothing is typed but a line feed, found by poll 199, the
last poll of the first round of the menu. -/
def late_line_feed : Nat → Option Int := fun n => if n = 198 then some 10 else none

/-- A console on which nothing is typed but a line feed, found by poll 198, one
poll before the last of the first round of the menu. -/
def early_line_feed : Nat → Option Int := fun n => if n = 197 then some 10 else none

/-- The device path that step 7 of `wpl_cmd` takes from the list:
`os_list[selection_number - 1].boot_partition`. -/
def chosen_partition (os_list : Nat → os_liste) (selection_number : Int) : CStr :=
  (os_list (selection_number - 1).toNat).boot_partition

/-- The calls that steps 5 to 9 of `wpl_cmd` make when both loads succeed, for
the device path `boot_partition`. -/
def pipeline_calls (boot_partition : CStr) (usb_eth_addr : Option CStr) : List Event :=
  [Event.run_command load_fdt_cmd, Event.run_command load_kernel_cmd,
    Event.setenv (cstr "bootargs") (bootargs boot_partition usb_eth_addr),
    Event.printf (cstr "setenv bootargs " ++ bootargs boot_partition usb_eth_addr ++ cstr "\n"),
    Event.mdelay 2000,
    Event.fs_set_blk_dev (cstr "usb") (path_dev_id boot_partition),
    Event.ext4fs_exists (cstr "/etc/fstab")]

/-- The calls that a run of `wpl_cmd` adds to the trace. -/
def wpl_calls (w : World) (fuel : Nat) (os_list : Memory) (s : State) : List Event :=
  (wpl_cmd w fuel os_list s).2.trace.drop s.trace.length

/-- The device path of the candidate that selection `n` designates in a run of
`wpl_cmd`. -/
def wpl_chosen (w : World) (os_list : Memory) (s : State) (n : Int) : CStr :=
  chosen_partition (wpl_scan w os_list s).2.1 n

/-- The result of the marker check on the candidate that selection `n` designates
in a run of `wpl_cmd`. -/
def wpl_marker (w : World) (os_list : Memory) (s : State) (n : Int) : Int :=
  w.ext4fs_exists (path_dev_id (wpl_chosen w os_list s n)) (cstr "/etc/fstab")

/-- The same world with no `/etc/fstab` on any partition. -/
def World.without_marker (w : World) : World := { w with ext4fs_exists := fun _ _ => 0 }

/-- The heading that `display_menu` prints when a round starts. -/
def menu_heading : Event := Event.printf (cstr "Select an Operating System to boot ...\n\n")

/-- The calls of a trace from the first `setenv` on. -/
def calls_from_setenv (t : List Event) : List Event :=
  t.dropWhile fun e =>
    match e with
    | Event.setenv _ _ => false
    | _ => true

/-- The calls of one failed attempt of `check_usb_storage`: the command, the
delay, the bus reset and the blank lines. -/
def usb_failed_attempt : List Event :=
  [Event.run_command (cstr "usb storage"), Event.mdelay 2000,
    Event.run_command (cstr "usb reset"), Event.printf (cstr "\n\n")]

/-- The calls of `k` failed attempts in a row. -/
def usb_failed_attempts : Nat → List Event
  | 0 => []
  | k + 1 => usb_failed_attempt ++ usb_failed_attempts k

/-- The number of runs of `usb storage` that fail before the first one that
succeeds, among the `r` runs from run `n` on. -/
def usb_failures_from (w : World) : Nat → Nat → Nat
  | 0, _ => 0
  | r + 1, n => if w.usb_storage n ≠ 0 then usb_failures_from w r (n + 1) + 1 else 0

/-- The number of failed runs of `usb storage` before the first success, among
the first 10 runs. -/
def usb_failures (w : World) : Nat := usb_failures_from w 10 0

/-- The message of `check_usb_storage` when it gives up. -/
def usb_exhausted : Event :=
  Event.printf (cstr "Could not find a USB disk after 20 seconds ... arborting!\n\n")

/-- The number of runs of `usb storage` in a list of calls. -/
def usb_attempts (t : List Event) : Nat := t.count (Event.run_command (cstr "usb storage"))

/-- The same world with the given results of the runs of `usb storage`. -/
def World.with_usb (w : World) (usb : Nat → Int) : World := { w with usb_storage := usb }

/-- The same world in which the command `bootz` returns the given status. -/
def World.with_bootz (w : World) (rc : Int) : World := { w with bootz := some rc }

/-- The calls of one `sleepy_check` that finds `x` on the console. -/
def poll_calls (x : Option Int) : List Event :=
  match x with
  | some _ => [Event.mdelay 100, Event.tstc, Event.getc]
  | none => [Event.mdelay 100, Event.tstc]

/-- The text of the countdown message for the value `v`. -/
def countdown_text (v : Int) : CStr := cstr "booting in " ++ fmt_d v ++ cstr " seconds\r"

/-- The calls of iteration `j = t + 1` of `master_sleep` when its poll, the one at
position `base + t` of the console, does not end the loop: the poll, and the
countdown message with the value `20 - j / 10` when `j` is a multiple of 10. -/
def iteration_calls (w : World) (base t : Nat) : List Event :=
  poll_calls (w.console (base + t)) ++
    if (t + 1) % 10 = 0 then [Event.printf (countdown_text (20 - (((t + 1) / 10 : Nat) : Int)))]
    else []

/-- The calls of the `n` iterations `t + 1, ..., t + n` of `master_sleep` when none
of their polls ends the loop. -/
def sleep_calls (w : World) (base : Nat) : Nat → Nat → List Event
  | 0, _ => []
  | n + 1, t => iteration_calls w base t ++ sleep_calls w base n (t + 1)

/-- The texts printed in a list of calls, in order. -/
def printed (t : List Event) : List CStr :=
  t.filterMap fun e =>
    match e with
    | Event.printf text => some text
    | _ => none

/-- The same world in which the kernel load returns the given status. -/
def World.with_kernel_load (w : World) (rc : Int) : World :=
  { w with run_command := fun cmd => if cmd = load_kernel_cmd then rc else w.run_command cmd }

/-! ## Lemmas on the polling loop -/

theorem log_polls (s : State) (e : Event) : (s.log e).polls = s.polls := rfl

theorem sleepy_check_polls (w : World) (s : State) :
    (sleepy_check w s).2.polls = s.polls + 1 := by
  unfold sleepy_check
  cases w.console s.polls <;> rfl

theorem sleepy_check_value (w : World) (s : State) :
    (sleepy_check w s).1 = (w.console s.polls).getD 0 := by
  unfold sleepy_check
  cases w.console s.polls <;> rfl

theorem normalize_not_qualifying (x : Option Int) (h : qualifying x = false) :
    normalize (x.getD 0) = x.getD 0 ∧ ¬ normalize (x.getD 0) > 32 := by
  cases x with
  | none => simp [normalize]
  | some c =>
    simp only [qualifying, Bool.or_eq_false_iff, decide_eq_false_iff_not] at h
    obtain ⟨⟨h1, h2⟩, h3⟩ := h
    simp [normalize, h1, h2, h3]

theorem normalize_qualifying (c : Int) (h : qualifying (some c) = true) :
    normalize c > 32 := by
  simp only [qualifying, Bool.or_eq_true, decide_eq_true_eq] at h
  unfold normalize
  split <;> omega

theorem master_sleep_loop_hit (w : World) (c : Int) (hc : qualifying (some c) = true) :
    ∀ (p fuel j : Nat) (k rc : Int) (s : State), j + p < 200 → p < fuel →
      (∀ t, t < p → qualifying (w.console (s.polls + t)) = false) →
      w.console (s.polls + p) = some c →
      (master_sleep_loop w fuel j k rc s).1 = normalize c ∧
        (master_sleep_loop w fuel j k rc s).2.polls = s.polls + p + 1 := by
  intro p
  induction p with
  | zero =>
    intro fuel j k rc s hj hf _ hp
    obtain ⟨f, rfl⟩ : ∃ f, fuel = f + 1 := ⟨fuel - 1, by omega⟩
    have hj' : j < 200 := by omega
    have hv : (sleepy_check w s).1 = c := by
      rw [sleepy_check_value]; simp at hp; simp [hp]
    have hq := normalize_qualifying c hc
    simp only [master_sleep_loop, hj', if_true, hv, hq, sleepy_check_polls]
    simp
  | succ p ih =>
    intro fuel j k rc s hj hf hnq hp
    obtain ⟨f, rfl⟩ : ∃ f, fuel = f + 1 := ⟨fuel - 1, by omega⟩
    have hj' : j < 200 := by omega
    have h0 := normalize_not_qualifying (w.console s.polls) (by simpa using hnq 0 (by omega))
    have hnq' : ∀ (s1 : State), s1.polls = s.polls + 1 →
        ∀ t, t < p → qualifying (w.console (s1.polls + t)) = false := by
      intro s1 hs1 t ht
      have := hnq (t + 1) (by omega)
      rw [hs1]
      rwa [show s.polls + 1 + t = s.polls + (t + 1) by omega]
    have hp' : ∀ (s1 : State), s1.polls = s.polls + 1 → w.console (s1.polls + p) = some c := by
      intro s1 hs1
      rw [hs1]
      rwa [show s.polls + 1 + p = s.polls + (p + 1) by omega]
    have hgt : ¬ (w.console s.polls).getD 0 > 32 := by
      have := h0.2
      rwa [h0.1] at this
    simp only [master_sleep_loop, hj', if_true, sleepy_check_value, h0.1, hgt, if_false]
    split
    · have hs1 : ((sleepy_check w s).2.log (Event.printf
          (cstr "booting in " ++ fmt_d k ++ cstr " seconds\r"))).polls = s.polls + 1 := by
        rw [log_polls, sleepy_check_polls]
      have := ih f (j + 1) (k - 1) ((w.console s.polls).getD 0) _ (by omega) (by omega)
        (hnq' _ hs1) (hp' _ hs1)
      rw [hs1] at this
      refine ⟨this.1, ?_⟩
      rw [this.2]; omega
    · have hs1 := sleepy_check_polls w s
      have := ih f (j + 1) k ((w.console s.polls).getD 0) _ (by omega) (by omega)
        (hnq' _ hs1) (hp' _ hs1)
      rw [hs1] at this
      refine ⟨this.1, ?_⟩
      rw [this.2]; omega

theorem master_sleep_loop_miss (w : World) :
    ∀ (n fuel j : Nat) (k rc : Int) (s : State), j + n = 200 → n ≤ fuel →
      (∀ t, t < n → qualifying (w.console (s.polls + t)) = false) →
      (master_sleep_loop w fuel j k rc s).1 =
          (if n = 0 then rc else (w.console (s.polls + n - 1)).getD 0) ∧
        (master_sleep_loop w fuel j k rc s).2.polls = s.polls + n := by
  intro n
  induction n with
  | zero =>
    intro fuel j k rc s hj _ _
    cases fuel with
    | zero => simp [master_sleep_loop]
    | succ f =>
      have hj' : ¬ j < 200 := by omega
      simp [master_sleep_loop, hj']
  | succ n ih =>
    intro fuel j k rc s hj hf hnq
    obtain ⟨f, rfl⟩ : ∃ f, fuel = f + 1 := ⟨fuel - 1, by omega⟩
    have hj' : j < 200 := by omega
    have h0 := normalize_not_qualifying (w.console s.polls) (by simpa using hnq 0 (by omega))
    have hnq' : ∀ (s1 : State), s1.polls = s.polls + 1 →
        ∀ t, t < n → qualifying (w.console (s1.polls + t)) = false := by
      intro s1 hs1 t ht
      have := hnq (t + 1) (by omega)
      rw [hs1]
      rwa [show s.polls + 1 + t = s.polls + (t + 1) by omega]
    have key : ∀ (k1 : Int) (s1 : State), s1.polls = s.polls + 1 →
        (master_sleep_loop w f (j + 1) k1 ((w.console s.polls).getD 0) s1).1 =
            (w.console (s.polls + (n + 1) - 1)).getD 0 ∧
          (master_sleep_loop w f (j + 1) k1 ((w.console s.polls).getD 0) s1).2.polls =
            s.polls + (n + 1) := by
      intro k1 s1 hs1
      have := ih f (j + 1) k1 ((w.console s.polls).getD 0) s1 (by omega) (by omega)
        (hnq' s1 hs1)
      rw [hs1] at this
      refine ⟨?_, by rw [this.2]; omega⟩
      rw [this.1]
      by_cases hn : n = 0
      · subst hn; simp
      · rw [if_neg hn, show s.polls + 1 + n - 1 = s.polls + (n + 1) - 1 by omega]
    have hgt : ¬ (w.console s.polls).getD 0 > 32 := by
      have := h0.2
      rwa [h0.1] at this
    simp only [master_sleep_loop, hj', if_true, sleepy_check_value, h0.1, hgt, if_false,
      Nat.succ_ne_zero]
    split
    · exact key _ _ (by rw [log_polls, sleepy_check_polls])
    · exact key _ _ (sleepy_check_polls w s)

/-- A qualifying character found by poll number `p + 1` of a call ends the call:
`master_sleep` returns it, normalised, after `p + 1` polls. -/
theorem master_sleep_hit (w : World) (s : State) (p : Nat) (c : Int) (hp : p < 199)
    (hnq : ∀ t, t < p → qualifying (w.console (s.polls + t)) = false)
    (hc : w.console (s.polls + p) = some c) (hq : qualifying (some c) = true) :
    (master_sleep w s).1 = normalize c ∧ (master_sleep w s).2.polls = s.polls + p + 1 :=
  master_sleep_loop_hit w c hq p 200 1 19 0 s (by omega) (by omega) hnq hc

/-- Without a qualifying character `master_sleep` makes 199 polls and returns the
result of the last one. -/
theorem master_sleep_miss (w : World) (s : State)
    (hnq : ∀ t, t < 199 → qualifying (w.console (s.polls + t)) = false) :
    (master_sleep w s).1 = (w.console (s.polls + 198)).getD 0 ∧
      (master_sleep w s).2.polls = s.polls + 199 := by
  have := master_sleep_loop_miss w 199 200 1 19 0 s (by omega) (by omega) hnq
  simpa using this

theorem render_menu_polls (len : Int) (os_list : Nat → os_liste) (s : State) :
    (render_menu len os_list s).polls = s.polls := rfl

theorem display_menu_succ (w : World) (len : Int) (os_list : Nat → os_liste) (fuel : Nat)
    (s : State) :
    display_menu w len os_list (fuel + 1) s =
      if 1 ≤ parse_selection (master_sleep w (render_menu len os_list s)).1 ∧
          parse_selection (master_sleep w (render_menu len os_list s)).1 ≤ len then
        (some (parse_selection (master_sleep w (render_menu len os_list s)).1),
          (master_sleep w (render_menu len os_list s)).2)
      else
        display_menu w len os_list fuel
          ((master_sleep w (render_menu len os_list s)).2.log
            (Event.printf (cstr "Invalid selection, please try again ...\n"))) := rfl

theorem display_menu_range (w : World) (len : Int) (os_list : Nat → os_liste) :
    ∀ (fuel : Nat) (s : State) (n : Int),
      (display_menu w len os_list fuel s).1 = some n → 1 ≤ n ∧ n ≤ len := by
  intro fuel
  induction fuel with
  | zero => intro s n h; simp [display_menu] at h
  | succ f ih =>
    intro s n h
    rw [display_menu_succ] at h
    split at h
    · next hsel =>
      simp only [Option.some.injEq] at h
      rw [← h]; exact hsel
    · exact ih _ n h

theorem parse_selection_hex (c v : Nat) (h : hex_digit_value c = some v) :
    parse_selection (c : Int) = (v : Int) := by
  unfold hex_digit_value at h
  split_ifs at h with h1 h2 h3
  · obtain ⟨ha, hb⟩ := h1
    simp only [Option.some.injEq] at h
    subst h
    interval_cases c <;> rfl
  · obtain ⟨ha, hb⟩ := h2
    simp only [Option.some.injEq] at h
    subst h
    interval_cases c <;> rfl
  · obtain ⟨ha, hb⟩ := h3
    simp only [Option.some.injEq] at h
    subst h
    interval_cases c <;> rfl

theorem hex_digit_qualifying (c v : Nat) (h : hex_digit_value c = some v) :
    qualifying (some (c : Int)) = true ∧ normalize (c : Int) = (c : Int) := by
  have hc : 48 ≤ c := by
    unfold hex_digit_value at h
    split_ifs at h <;> omega
  constructor
  · simp only [qualifying, Bool.or_eq_true, decide_eq_true_eq]
    omega
  · unfold normalize
    rw [if_neg]
    omega

/-- Claim C4: a hexadecimal digit `c` of value `v` with `1 ≤ v ≤ len` that is the
first qualifying character of the first polling round (found by one of its 199
polls) makes `display_menu` return `v` in that round, with no poll made after
the one that read `c`. -/
theorem display_menu_selects_hex_digit (w : World) (len : Int) (os_list : Nat → os_liste)
    (fuel : Nat) (s : State) (p c v : Nat)
    (hv : hex_digit_value c = some v) (h1 : 1 ≤ v) (hlen : (v : Int) ≤ len) (hp : p < 199)
    (hnq : ∀ t, t < p → qualifying (w.console (s.polls + t)) = false)
    (hc : w.console (s.polls + p) = some (c : Int)) :
    (display_menu w len os_list (fuel + 1) s).1 = some (v : Int) ∧
      (display_menu w len os_list (fuel + 1) s).2.polls = s.polls + p + 1 := by
  have hq := hex_digit_qualifying c v hv
  have hms := master_sleep_hit w (render_menu len os_list s) p (c : Int) hp hnq hc hq.1
  rw [hq.2, render_menu_polls] at hms
  have hsel := parse_selection_hex c v hv
  rw [display_menu_succ, hms.1, hsel, if_pos ⟨by omega, hlen⟩]
  exact ⟨rfl, hms.2⟩

/-- Witness of C4: `3` typed at the third poll with three entries selects 3, and
`f`, `A` typed at once with fifteen entries select 15 and 10. -/
theorem display_menu_selects_hex_digit_witness :
    (display_menu (World.sample [] fun n => if n = 2 then some 51 else none) 3 os_list_blank 1
        State.init).1 = some 3 ∧
      (display_menu (World.sample [] fun _ => some 102) 15 os_list_blank 1
        State.init).1 = some 15 ∧
      (display_menu (World.sample [] fun _ => some 65) 15 os_list_blank 1
        State.init).1 = some 10 :=
  ⟨(display_menu_selects_hex_digit (World.sample [] fun n => if n = 2 then some 51 else none)
      3 os_list_blank 0 State.init 2 51 3 (by decide) (by decide) (by decide) (by decide)
      (by decide) (by decide)).1,
    (display_menu_selects_hex_digit (World.sample [] fun _ => some 102)
      15 os_list_blank 0 State.init 0 102 15 (by decide) (by decide) (by decide) (by decide)
      (by decide) (by decide)).1,
    (display_menu_selects_hex_digit (World.sample [] fun _ => some 65)
      15 os_list_blank 0 State.init 0 65 10 (by decide) (by decide) (by decide) (by decide)
      (by decide) (by decide)).1⟩

/-- Claim C5: a value returned by `display_menu` lies in `1 .. len`, and a round
whose parsed selection number lies outside `1 .. len` does not return: it prints
the invalid-selection message and the menu starts again from there. -/
theorem display_menu_result_in_range (w : World) (len : Int) (os_list : Nat → os_liste)
    (fuel : Nat) (s : State) :
    (∀ n, (display_menu w len os_list fuel s).1 = some n → 1 ≤ n ∧ n ≤ len) ∧
      (¬ (1 ≤ parse_selection (master_sleep w (render_menu len os_list s)).1 ∧
          parse_selection (master_sleep w (render_menu len os_list s)).1 ≤ len) →
        (display_menu w len os_list 1 s).1 = none ∧
        display_menu w len os_list (fuel + 1) s =
          display_menu w len os_list fuel
            ((master_sleep w (render_menu len os_list s)).2.log
              (Event.printf (cstr "Invalid selection, please try again ...\n")))) := by
  refine ⟨fun n h => display_menu_range w len os_list fuel s n h, fun h => ⟨?_, ?_⟩⟩
  · rw [display_menu_succ, if_neg h]
    rfl
  · rw [display_menu_succ, if_neg h]

/-- Witness of C5: with five entries the key `9` is refused in the first round
(and so is `z`), and the value returned in the second round, 1, lies in `1 .. 5`. -/
theorem display_menu_result_in_range_witness :
    (display_menu (World.sample [] fun n => if n = 0 then some 57 else none) 5 os_list_blank 2
        State.init).1 = some 1 ∧
      ((1 : Int) ≤ 1 ∧ (1 : Int) ≤ 5) ∧
      (display_menu (World.sample [] fun n => if n = 0 then some 57 else none) 5 os_list_blank 1
        State.init).1 = none ∧
      (display_menu (World.sample [] fun n => if n = 0 then some 122 else none) 5 os_list_blank 1
        State.init).1 = none :=
  ⟨by decide,
    (display_menu_result_in_range (World.sample [] fun n => if n = 0 then some 57 else none) 5
      os_list_blank 2 State.init).1 1 (by decide),
    ((display_menu_result_in_range (World.sample [] fun n => if n = 0 then some 57 else none) 5
      os_list_blank 0 State.init).2 (by decide)).1,
    ((display_menu_result_in_range (World.sample [] fun n => if n = 0 then some 122 else none) 5
      os_list_blank 0 State.init).2 (by decide)).1⟩

/-- Claim C6: with a non-empty list and no character available at any of the 199
polls of the round, `master_sleep` returns 0 and `display_menu` returns 1 at the
end of that single round. -/
theorem display_menu_timeout_default (w : World) (len : Int) (os_list : Nat → os_liste)
    (fuel : Nat) (s : State) (hlen : 1 ≤ len)
    (hno : ∀ t, t < 199 → w.console (s.polls + t) = none) :
    (master_sleep w s).1 = 0 ∧
      (display_menu w len os_list (fuel + 1) s).1 = some 1 ∧
      (display_menu w len os_list (fuel + 1) s).2.polls = s.polls + 199 := by
  have hnq : ∀ t, t < 199 → qualifying (w.console (s.polls + t)) = false := by
    intro t ht
    rw [hno t ht]
    rfl
  have h1 := master_sleep_miss w s hnq
  have h2 := master_sleep_miss w (render_menu len os_list s) hnq
  rw [render_menu_polls] at h2
  rw [hno 198 (by omega)] at h1 h2
  have hsel : parse_selection 0 = 1 := by decide
  refine ⟨h1.1, ?_, ?_⟩
  · rw [display_menu_succ, h2.1]
    simp only [Option.getD_none, hsel]
    rw [if_pos ⟨le_refl 1, hlen⟩]
  · rw [display_menu_succ, h2.1]
    simp only [Option.getD_none, hsel]
    rw [if_pos ⟨le_refl 1, hlen⟩]
    exact h2.2

/-- Witness of C6: one entry and a silent console. -/
theorem display_menu_timeout_default_witness :
    (master_sleep (World.sample [(1, cstr "Alpine")] fun _ => none) State.init).1 = 0 ∧
      (display_menu (World.sample [(1, cstr "Alpine")] fun _ => none) 1 os_list_blank 1
        State.init).1 = some 1 ∧
      (display_menu (World.sample [(1, cstr "Alpine")] fun _ => none) 1 os_list_blank 1
        State.init).2.polls = 0 + 199 :=
  display_menu_timeout_default (World.sample [(1, cstr "Alpine")] fun _ => none) 1 os_list_blank
    0 State.init (by decide) (fun _ _ => rfl)

/-- Claim C7, the run that contradicts it: one candidate, and no qualifying
character in the round, only a line feed at its last poll. `master_sleep` returns
the line feed, the round ends with the invalid-selection message instead of
selection 1, and selection 1 is returned only at the end of a second round. The
same line feed one poll earlier is ignored and the round ends with selection 1. -/
theorem display_menu_late_control_character :
    (∀ t, t < 199 → qualifying (late_line_feed t) = false) ∧
      (wpl_scan (World.sample [(1, cstr "Alpine")] late_line_feed) os_list_zero State.init).1
        = 1 ∧
      (master_sleep (World.sample [(1, cstr "Alpine")] late_line_feed) State.init).1 = 10 ∧
      (display_menu (World.sample [(1, cstr "Alpine")] late_line_feed) 1 os_list_blank 1
        State.init).1 = none ∧
      (display_menu (World.sample [(1, cstr "Alpine")] late_line_feed) 1 os_list_blank 1
        State.init).2.polls = 199 ∧
      (display_menu (World.sample [(1, cstr "Alpine")] late_line_feed) 1 os_list_blank 1
        State.init).2.trace.getLast? =
          some (Event.printf (cstr "Invalid selection, please try again ...\n")) ∧
      (display_menu (World.sample [(1, cstr "Alpine")] late_line_feed) 1 os_list_blank 2
        State.init).1 = some 1 ∧
      (display_menu (World.sample [(1, cstr "Alpine")] late_line_feed) 1 os_list_blank 2
        State.init).2.polls = 398 ∧
      (master_sleep (World.sample [(1, cstr "Alpine")] early_line_feed) State.init).1 = 0 ∧
      (display_menu (World.sample [(1, cstr "Alpine")] early_line_feed) 1 os_list_blank 1
        State.init).1 = some 1 := by
  refine ⟨by decide, by decide, by decide, by decide, by decide, by decide, by decide, by decide,
    by decide, by decide⟩

/-- Claim C10: with a non-empty list, a space or a carriage return that is the
first qualifying character of the round makes `master_sleep` return `'1'` and
`display_menu` return 1. -/
theorem display_menu_space_or_return (w : World) (len : Int) (os_list : Nat → os_liste)
    (fuel : Nat) (s : State) (p : Nat) (c : Int) (hlen : 1 ≤ len) (hc : c = 32 ∨ c = 13)
    (hp : p < 199) (hnq : ∀ t, t < p → qualifying (w.console (s.polls + t)) = false)
    (hpoll : w.console (s.polls + p) = some c) :
    (master_sleep w s).1 = 49 ∧ (display_menu w len os_list (fuel + 1) s).1 = some 1 := by
  have hq : qualifying (some c) = true := by
    rcases hc with rfl | rfl <;> rfl
  have hn : normalize c = 49 := by
    rcases hc with rfl | rfl <;> rfl
  have h1 := master_sleep_hit w s p c hp hnq hpoll hq
  have h2 := master_sleep_hit w (render_menu len os_list s) p c hp hnq hpoll hq
  rw [hn] at h1 h2
  have hsel : parse_selection 49 = 1 := by decide
  refine ⟨h1.1, ?_⟩
  rw [display_menu_succ, h2.1, hsel, if_pos ⟨le_refl 1, hlen⟩]

/-- Witness of C10: a space at the first poll, and a carriage return at the sixth
poll after a line feed at the second. -/
theorem display_menu_space_or_return_witness :
    ((master_sleep (World.sample [] fun n => if n = 0 then some 32 else none) State.init).1 = 49 ∧
        (display_menu (World.sample [] fun n => if n = 0 then some 32 else none) 2 os_list_blank
          1 State.init).1 = some 1) ∧
      ((master_sleep (World.sample [] fun n => if n = 1 then some 10 else
          if n = 5 then some 13 else none) State.init).1 = 49 ∧
        (display_menu (World.sample [] fun n => if n = 1 then some 10 else
          if n = 5 then some 13 else none) 2 os_list_blank 1 State.init).1 = some 1) :=
  ⟨display_menu_space_or_return (World.sample [] fun n => if n = 0 then some 32 else none) 2
      os_list_blank 0 State.init 0 32 (by decide) (by decide) (by decide) (by decide)
      (by decide),
    display_menu_space_or_return (World.sample [] fun n => if n = 1 then some 10 else
      if n = 5 then some 13 else none) 2 os_list_blank 0 State.init 5 13 (by decide) (by decide)
      (by decide) (by decide) (by decide)⟩

/-! ## The partition scan -/

theorem probes_append (t u : List Event) : probes (t ++ u) = probes t ++ probes u := by
  simp [probes, List.filterMap_append]

theorem strcpy_below (mem : Memory) (dst : Nat) (src : CStr) (a : Nat) (h : a < dst) :
    strcpy mem dst src a = mem a := by
  unfold strcpy
  rw [if_neg (by omega), if_neg (by omega)]

theorem strcpy_above (mem : Memory) (dst : Nat) (src : CStr) (a : Nat)
    (h : dst + (c_bytes src).length < a) : strcpy mem dst src a = mem a := by
  unfold strcpy
  rw [if_neg (by omega), if_neg (by omega)]

theorem strcpy_at (mem : Memory) (dst : Nat) (src : CStr) (t : Nat)
    (h : t ≤ (c_bytes src).length) :
    strcpy mem dst src (dst + t) = (c_bytes src ++ [0]).getD t 0 := by
  unfold strcpy
  by_cases ht : t < (c_bytes src).length
  · rw [if_pos (by omega), Nat.add_sub_cancel_left]
    simp [List.getD_eq_getElem?_getD, List.getElem?_append_left ht]
  · have hteq : t = (c_bytes src).length := by omega
    rw [if_neg (by omega), if_pos (by omega)]
    subst hteq
    simp [List.getD_eq_getElem?_getD]

theorem c_bytes_nonzero (src : CStr) : ∀ b, b ∈ c_bytes src → b ≠ 0 := by
  intro b hb
  have := List.mem_takeWhile_imp hb
  simpa using this

theorem c_string_upto_eq :
    ∀ (str : CStr) (mem : Memory) (n a : Nat), (∀ b, b ∈ str → b ≠ 0) → str.length < n →
      (∀ t, t ≤ str.length → mem (a + t) = (str ++ [0]).getD t 0) →
      c_string_upto mem n a = str := by
  intro str
  induction str with
  | nil =>
    intro mem n a _ hn hmem
    obtain ⟨k, rfl⟩ : ∃ k, n = k + 1 := ⟨n - 1, by simp at hn; omega⟩
    have h0 : mem a = 0 := by simpa using hmem 0 (by simp)
    simp [c_string_upto, h0]
  | cons c str ih =>
    intro mem n a hnz hn hmem
    obtain ⟨k, rfl⟩ : ∃ k, n = k + 1 := ⟨n - 1, by simp at hn; omega⟩
    have h0 : mem a = c := by simpa using hmem 0 (by simp)
    have hc : c ≠ 0 := hnz c (by simp)
    have hrest : c_string_upto mem k (a + 1) = str := by
      apply ih mem k (a + 1) (fun b hb => hnz b (by simp [hb])) (by simp at hn; omega)
      intro t ht
      have := hmem (t + 1) (by simp; omega)
      rw [show a + 1 + t = a + (t + 1) by omega, this]
      simp
    simp [c_string_upto, h0, hc, hrest]

theorem scan_path_bytes (m : Nat) (hm : m ≤ 15) :
    c_bytes (scan_path m) = scan_path m ∧ (scan_path m).length ≤ 10 := by
  interval_cases m <;> exact ⟨by decide, by decide⟩

theorem gather_loop_spec (w : World) :
    ∀ (n fuel i index : Nat) (os_list : Memory) (s : State), i + n = 16 → n ≤ fuel →
      (gather_partition_info_loop w fuel i index os_list s).1 =
          index + ((List.range' i n).filter (partition_recognized w)).length ∧
        (∀ a, a < 28 * index →
          (gather_partition_info_loop w fuel i index os_list s).2.1 a = os_list a) ∧
        (∀ q m, ((List.range' i n).filter (partition_recognized w))[q]? = some m →
          ∀ t, t ≤ (scan_path m).length →
            (gather_partition_info_loop w fuel i index os_list s).2.1
              (28 * (index + q) + 16 + t) = (scan_path m ++ [0]).getD t 0) ∧
        (∀ q m, ((List.range' i n).filter (partition_recognized w))[q]? = some m →
          (c_bytes (w.volume_name (scan_dev_id m))).length ≤ 15 →
          ∀ t, t ≤ (c_bytes (w.volume_name (scan_dev_id m))).length →
            (gather_partition_info_loop w fuel i index os_list s).2.1
              (28 * (index + q) + t) =
                (c_bytes (w.volume_name (scan_dev_id m)) ++ [0]).getD t 0) ∧
        probes (gather_partition_info_loop w fuel i index os_list s).2.2.trace =
          probes s.trace ++ (List.range' i n).map scan_dev_id := by
  intro n
  induction n with
  | zero =>
    intro fuel i index os_list s hi _
    have hres : gather_partition_info_loop w fuel i index os_list s = (index, os_list, s) := by
      cases fuel with
      | zero => rfl
      | succ f =>
        have : ¬ i < 16 := by omega
        simp [gather_partition_info_loop, this]
    rw [hres]
    simp
  | succ n ih =>
    intro fuel i index os_list s hi hf
    obtain ⟨f, rfl⟩ : ∃ f, fuel = f + 1 := ⟨fuel - 1, by omega⟩
    have hlt : i < 16 := by omega
    have hprobe : ∀ s2 : State,
        s2 = (if w.fs_set_blk_dev (scan_dev_id i) = 0 then
            (s.log (Event.fs_set_blk_dev (cstr "usb") (scan_dev_id i))).log
              Event.ext4_read_superblock
          else s.log (Event.fs_set_blk_dev (cstr "usb") (scan_dev_id i))) →
        probes s2.trace = probes s.trace ++ [scan_dev_id i] := by
      intro s2 hs2
      rw [hs2]
      split <;> simp [State.log, probes, List.filterMap_append]
    by_cases hrec : recognized w (scan_dev_id i) = true
    · have hfil : (List.range' i (n + 1)).filter (partition_recognized w) =
          i :: (List.range' (i + 1) n).filter (partition_recognized w) := by
        rw [List.range'_succ, List.filter_cons_of_pos]
        exact hrec
      have hstep : gather_partition_info_loop w (f + 1) i index os_list s =
          gather_partition_info_loop w f (i + 1) (index + 1)
            (strcpy (strcpy os_list (28 * index) (w.volume_name (scan_dev_id i)))
              (28 * index + 16) (scan_path i))
            (if w.fs_set_blk_dev (scan_dev_id i) = 0 then
              (s.log (Event.fs_set_blk_dev (cstr "usb") (scan_dev_id i))).log
                Event.ext4_read_superblock
            else s.log (Event.fs_set_blk_dev (cstr "usb") (scan_dev_id i))) := by
        simp only [gather_partition_info_loop, hlt, if_true, hrec]
      obtain ⟨hpb, hplen⟩ := scan_path_bytes i (by omega)
      obtain ⟨h1, h2, h3, h4, h5⟩ := ih f (i + 1) (index + 1)
        (strcpy (strcpy os_list (28 * index) (w.volume_name (scan_dev_id i)))
          (28 * index + 16) (scan_path i))
        (if w.fs_set_blk_dev (scan_dev_id i) = 0 then
          (s.log (Event.fs_set_blk_dev (cstr "usb") (scan_dev_id i))).log
            Event.ext4_read_superblock
        else s.log (Event.fs_set_blk_dev (cstr "usb") (scan_dev_id i))) (by omega) (by omega)
      rw [hstep, hfil]
      refine ⟨?_, ?_, ?_, ?_, ?_⟩
      · rw [h1, List.length_cons]; omega
      · intro a ha
        rw [h2 a (by omega), strcpy_below _ _ _ _ (by omega), strcpy_below _ _ _ _ ha]
      · intro q m hq t ht
        cases q with
        | zero =>
          simp only [List.getElem?_cons_zero, Option.some.injEq] at hq
          subst hq
          have e1 : 28 * (index + 0) + 16 + t = (28 * index + 16) + t := by omega
          rw [e1, h2 _ (by omega)]
          have hat := strcpy_at (strcpy os_list (28 * index) (w.volume_name (scan_dev_id i)))
            (28 * index + 16) (scan_path i) t (by rw [hpb]; exact ht)
          rw [hpb] at hat
          exact hat
        | succ q =>
          simp only [List.getElem?_cons_succ] at hq
          have := h3 q m hq t ht
          rw [show index + (q + 1) = index + 1 + q by omega]
          exact this
      · intro q m hq hlen t ht
        cases q with
        | zero =>
          simp only [List.getElem?_cons_zero, Option.some.injEq] at hq
          subst hq
          have e1 : 28 * (index + 0) + t = 28 * index + t := by omega
          rw [e1, h2 _ (by omega), strcpy_below _ _ _ _ (by omega)]
          exact strcpy_at _ _ _ _ ht
        | succ q =>
          simp only [List.getElem?_cons_succ] at hq
          have := h4 q m hq hlen t ht
          rw [show index + (q + 1) = index + 1 + q by omega]
          exact this
      · rw [h5, hprobe _ rfl, List.range'_succ, List.map_cons, List.append_assoc]
        rfl
    · have hfil : (List.range' i (n + 1)).filter (partition_recognized w) =
          (List.range' (i + 1) n).filter (partition_recognized w) := by
        rw [List.range'_succ, List.filter_cons_of_neg]
        exact hrec
      have hstep : gather_partition_info_loop w (f + 1) i index os_list s =
          gather_partition_info_loop w f (i + 1) index os_list
            (if w.fs_set_blk_dev (scan_dev_id i) = 0 then
              (s.log (Event.fs_set_blk_dev (cstr "usb") (scan_dev_id i))).log
                Event.ext4_read_superblock
            else s.log (Event.fs_set_blk_dev (cstr "usb") (scan_dev_id i))) := by
        simp only [gather_partition_info_loop, hlt, if_true, hrec]
        rfl
      obtain ⟨h1, h2, h3, h4, h5⟩ := ih f (i + 1) index os_list
        (if w.fs_set_blk_dev (scan_dev_id i) = 0 then
          (s.log (Event.fs_set_blk_dev (cstr "usb") (scan_dev_id i))).log
            Event.ext4_read_superblock
        else s.log (Event.fs_set_blk_dev (cstr "usb") (scan_dev_id i))) (by omega) (by omega)
      rw [hstep, hfil]
      refine ⟨h1, h2, h3, h4, ?_⟩
      rw [h5, hprobe _ rfl, List.range'_succ, List.map_cons, List.append_assoc]
      rfl

theorem recognized_indices_sorted (w : World) :
    (recognized_indices w).Pairwise (fun a b => a < b) := by
  unfold recognized_indices
  apply List.Pairwise.filter
  exact List.pairwise_lt_range' 1 15

theorem mem_recognized_indices (w : World) (i : Nat) :
    i ∈ recognized_indices w ↔ (1 ≤ i ∧ i ≤ 15) ∧ partition_recognized w i = true := by
  unfold recognized_indices
  rw [List.mem_filter, List.mem_range'_1]
  constructor
  · rintro ⟨⟨h1, h2⟩, h3⟩
    exact ⟨⟨h1, by omega⟩, h3⟩
  · rintro ⟨⟨h1, h2⟩, h3⟩
    exact ⟨⟨h1, by omega⟩, h3⟩

theorem recognized_indices_length (w : World) : (recognized_indices w).length ≤ 15 := by
  unfold recognized_indices
  have := List.length_filter_le (partition_recognized w) (List.range' 1 15)
  simpa using this

theorem gather_partition_info_spec (w : World) (os_list : Memory) (s : State) :
    (gather_partition_info w os_list s).1 = (recognized_indices w).length ∧
      (∀ q m, (recognized_indices w)[q]? = some m →
        (os_list_entries (gather_partition_info w os_list s).2.1 q).boot_partition =
          scan_path m) ∧
      (∀ q m, (recognized_indices w)[q]? = some m →
        (c_bytes (w.volume_name (scan_dev_id m))).length ≤ 15 →
        (os_list_entries (gather_partition_info w os_list s).2.1 q).display_string =
          c_bytes (w.volume_name (scan_dev_id m))) ∧
      probes (gather_partition_info w os_list s).2.2.trace =
        probes s.trace ++ (List.range' 1 15).map scan_dev_id := by
  obtain ⟨h1, _, h3, h4, h5⟩ := gather_loop_spec w 15 16 1 0 os_list s (by omega) (by omega)
  have hq15 : ∀ q m, (recognized_indices w)[q]? = some m → q < 15 ∧ m ≤ 15 := by
    intro q m hq
    obtain ⟨hlt, hget⟩ := List.getElem?_eq_some_iff.1 hq
    have hmem : m ∈ recognized_indices w := hget ▸ List.getElem_mem hlt
    have hm := (mem_recognized_indices w m).1 hmem
    exact ⟨lt_of_lt_of_le hlt (recognized_indices_length w), hm.1.2⟩
  refine ⟨by simpa using h1, ?_, ?_, h5⟩
  · intro q m hq
    obtain ⟨hq1, hm1⟩ := hq15 q m hq
    obtain ⟨hpb, hplen⟩ := scan_path_bytes m hm1
    have hbytes := h3 q m hq
    simp only [Nat.zero_add] at hbytes
    unfold os_list_entries c_string
    apply c_string_upto_eq
    · intro b hb
      rw [← hpb] at hb
      exact c_bytes_nonzero _ b hb
    · omega
    · exact hbytes
  · intro q m hq hlen
    obtain ⟨hq1, _⟩ := hq15 q m hq
    have hbytes := h4 q m hq hlen
    simp only [Nat.zero_add] at hbytes
    unfold os_list_entries c_string
    apply c_string_upto_eq
    · exact c_bytes_nonzero _
    · omega
    · exact hbytes

/-- Claim C1, the run that contradicts it: partition 1 is the only ext4 partition
and its label `ABCDEFGHIJKLMNOP` fills the 16 bytes of the label field. The scan
returns 1 and writes `/dev/sda1` as the device path, but `strcpy` puts the NUL of
the label on the first byte of `boot_partition`, which the device path then
overwrites: `display_string` reads `ABCDEFGHIJKLMNOP/dev/sda1`, not the volume
name, and `display_menu` prints it so. With the 15-byte label `ABCDEFGHIJKLMNO`
the entry does hold the volume name. -/
theorem gather_partition_info_full_label :
    (World.sample [(1, cstr "ABCDEFGHIJKLMNOP")] fun _ => none).volume_name (scan_dev_id 1) =
        cstr "ABCDEFGHIJKLMNOP" ∧
      (gather_partition_info (World.sample [(1, cstr "ABCDEFGHIJKLMNOP")] fun _ => none)
        os_list_zero State.init).1 = 1 ∧
      (os_list_entries (gather_partition_info
        (World.sample [(1, cstr "ABCDEFGHIJKLMNOP")] fun _ => none) os_list_zero
        State.init).2.1 0).boot_partition = cstr "/dev/sda1" ∧
      (os_list_entries (gather_partition_info
        (World.sample [(1, cstr "ABCDEFGHIJKLMNOP")] fun _ => none) os_list_zero
        State.init).2.1 0).display_string = cstr "ABCDEFGHIJKLMNOP/dev/sda1" ∧
      menu_lines 1 (wpl_scan (World.sample [(1, cstr "ABCDEFGHIJKLMNOP")] fun _ => none)
        os_list_zero State.init).2.1 =
          [Event.printf (cstr "              1 ABCDEFGHIJKLMNOP/dev/sda1\n")] ∧
      (os_list_entries (gather_partition_info
        (World.sample [(1, cstr "ABCDEFGHIJKLMNO")] fun _ => none) os_list_zero
        State.init).2.1 0).display_string = cstr "ABCDEFGHIJKLMNO" := by
  refine ⟨by decide, by decide, by decide, by decide, by decide, by decide⟩

theorem path_dev_id_scan_path (i : Nat) (h1 : 1 ≤ i) (h15 : i ≤ 15) :
    path_dev_id (scan_path i) = scan_dev_id i := by
  interval_cases i <;> rfl

/-- Claim C8: for a partition index `i` in 1..15, the text after the 8 characters
of `/dev/sda` in the synthesized device path parses in base 10 to `i`, and the
selector that `check_for_filename` builds from that path is the selector `0:`
followed by `i` in hexadecimal under which the scan mounted the partition; the
re-validation therefore selects that device and asks it for the file. -/
theorem device_path_round_trip (w : World) (filename : CStr) (s : State) (i : Nat)
    (h1 : 1 ≤ i) (h15 : i ≤ 15) :
    (scan_path i).drop 8 = fmt_d (i : Int) ∧
      to_int (simple_strtol ((scan_path i).drop 8) 10) = (i : Int) ∧
      path_dev_id (scan_path i) = scan_dev_id i ∧
      scan_dev_id i = cstr "0:" ++ fmt_x (i : Int) ∧
      (check_for_filename w filename (scan_path i) s).1 = w.ext4fs_exists (scan_dev_id i) filename ∧
      (check_for_filename w filename (scan_path i) s).2.trace =
        s.trace ++ [Event.fs_set_blk_dev (cstr "usb") (scan_dev_id i),
          Event.ext4fs_exists filename] := by
  have hid := path_dev_id_scan_path i h1 h15
  refine ⟨rfl, ?_, hid, rfl, ?_, ?_⟩
  · interval_cases i <;> rfl
  · simp only [check_for_filename, hid]
  · simp only [check_for_filename, hid, State.log, List.append_assoc, List.singleton_append]

/-- Witness of C8: partition 12, whose path is `/dev/sda12` and whose selector
is `0:c`. -/
theorem device_path_round_trip_witness :
    scan_path 12 = cstr "/dev/sda12" ∧ path_dev_id (scan_path 12) = cstr "0:c" ∧
      scan_dev_id 12 = cstr "0:c" :=
  ⟨by decide,
    ((device_path_round_trip (World.sample [] fun _ => none) (cstr "/etc/fstab") State.init 12
      (by decide) (by decide)).2.2.1).trans (by decide),
    by decide⟩

/-! ## What the steps before the pipeline add to the trace -/

theorem stages_append (t u : List Event) : stages (t ++ u) = stages t ++ stages u := by
  simp [stages, List.filterMap_append]

theorem Quiet.refl (s : State) : Quiet s s := ⟨[], by simp, rfl, rfl⟩

theorem Quiet.trans {s s1 s2 : State} (h1 : Quiet s s1) (h2 : Quiet s1 s2) : Quiet s s2 := by
  obtain ⟨l1, ht1, hs1, he1⟩ := h1
  obtain ⟨l2, ht2, hs2, he2⟩ := h2
  refine ⟨l1 ++ l2, ?_, ?_, ?_⟩
  · rw [ht2, ht1, List.append_assoc]
  · rw [stages_append, hs1, hs2]; rfl
  · rw [he2, he1]

theorem Quiet.log (s : State) (e : Event) (he : stage_of e = none) : Quiet s (s.log e) :=
  ⟨[e], rfl, by simp [stages, he], rfl⟩

theorem Quiet.log_trans {s s1 : State} (h : Quiet s s1) (e : Event) (he : stage_of e = none) :
    Quiet s (s1.log e) :=
  h.trans (Quiet.log s1 e he)

theorem Quiet.polls {s s1 : State} (h : Quiet s s1) (n : Nat) :
    Quiet s { s1 with polls := n } := by
  obtain ⟨l, ht, hs, he⟩ := h
  exact ⟨l, ht, hs, he⟩

theorem sleepy_check_quiet (w : World) (s : State) : Quiet s (sleepy_check w s).2 := by
  unfold sleepy_check
  cases w.console s.polls with
  | none =>
    exact (((Quiet.refl s).log_trans (Event.mdelay 100) rfl).log_trans Event.tstc rfl).polls _
  | some c =>
    exact ((((Quiet.refl s).log_trans (Event.mdelay 100) rfl).log_trans Event.tstc rfl).log_trans
      Event.getc rfl).polls _

theorem master_sleep_loop_quiet (w : World) :
    ∀ (fuel j : Nat) (k rc : Int) (s : State), Quiet s (master_sleep_loop w fuel j k rc s).2 := by
  intro fuel
  induction fuel with
  | zero => intro j k rc s; exact Quiet.refl s
  | succ f ih =>
    intro j k rc s
    simp only [master_sleep_loop]
    split
    · split
      · exact sleepy_check_quiet w s
      · split
        · exact ((sleepy_check_quiet w s).log_trans
            (Event.printf (cstr "booting in " ++ fmt_d k ++ cstr " seconds\r")) rfl).trans
              (ih _ _ _ _)
        · exact (sleepy_check_quiet w s).trans (ih _ _ _ _)
    · exact Quiet.refl s

theorem master_sleep_quiet (w : World) (s : State) : Quiet s (master_sleep w s).2 :=
  master_sleep_loop_quiet w 200 1 19 0 s

theorem stages_menu_lines (len : Int) (os_list : Nat → os_liste) :
    stages (menu_lines len os_list) = [] := by
  unfold menu_lines stages
  rw [List.filterMap_eq_nil_iff]
  intro e he
  rw [List.mem_map] at he
  obtain ⟨i, _, rfl⟩ := he
  rfl

theorem render_menu_quiet (len : Int) (os_list : Nat → os_liste) (s : State) :
    Quiet s (render_menu len os_list s) := by
  refine ⟨[Event.printf (cstr "Select an Operating System to boot ...\n\n")] ++
      menu_lines len os_list ++ [Event.printf (cstr "Enter selection number ... \n\n")], ?_, ?_, rfl⟩
  · simp [render_menu, List.append_assoc]
  · rw [stages_append, stages_append, stages_menu_lines]
    rfl

theorem display_menu_quiet (w : World) (len : Int) (os_list : Nat → os_liste) :
    ∀ (fuel : Nat) (s : State), Quiet s (display_menu w len os_list fuel s).2 := by
  intro fuel
  induction fuel with
  | zero => intro s; exact Quiet.refl s
  | succ f ih =>
    intro s
    have hround := (render_menu_quiet len os_list s).trans
      (master_sleep_quiet w (render_menu len os_list s))
    rw [display_menu_succ]
    split
    · exact hround
    · exact (hround.log_trans
        (Event.printf (cstr "Invalid selection, please try again ...\n")) rfl).trans (ih _)

theorem check_usb_storage_loop_quiet (w : World) :
    ∀ (fuel n : Nat) (rc retry_count : Int) (s : State),
      Quiet s (check_usb_storage_loop w fuel n rc retry_count s) := by
  intro fuel
  induction fuel with
  | zero => intro n rc retry_count s; exact Quiet.refl s
  | succ f ih =>
    intro n rc retry_count s
    have hq1 : Quiet s (s.log (Event.run_command (cstr "usb storage"))) :=
      Quiet.log s _ (by decide)
    have hq2 : Quiet s ((((s.log (Event.run_command (cstr "usb storage"))).log
        (Event.mdelay 2000)).log (Event.run_command (cstr "usb reset"))).log
          (Event.printf (cstr "\n\n"))) :=
      ((hq1.log_trans (Event.mdelay 2000) rfl).log_trans
        (Event.run_command (cstr "usb reset")) (by decide)).log_trans
          (Event.printf (cstr "\n\n")) rfl
    simp only [check_usb_storage_loop]
    split
    · split
      · split
        · exact hq2.log_trans (Event.printf
            (cstr "Could not find a USB disk after 20 seconds ... arborting!\n\n")) rfl
        · exact hq2.trans (ih _ _ _ _)
      · exact hq1.trans (ih _ _ _ _)
    · exact Quiet.refl s

theorem check_usb_storage_quiet (w : World) (s : State) : Quiet s (check_usb_storage w s) :=
  check_usb_storage_loop_quiet w 11 0 1 10 s

theorem gather_loop_quiet (w : World) :
    ∀ (fuel i index : Nat) (os_list : Memory) (s : State),
      Quiet s (gather_partition_info_loop w fuel i index os_list s).2.2 := by
  intro fuel
  induction fuel with
  | zero => intro i index os_list s; exact Quiet.refl s
  | succ f ih =>
    intro i index os_list s
    have hq : Quiet s (if w.fs_set_blk_dev (scan_dev_id i) = 0 then
        (s.log (Event.fs_set_blk_dev (cstr "usb") (scan_dev_id i))).log
          Event.ext4_read_superblock
        else s.log (Event.fs_set_blk_dev (cstr "usb") (scan_dev_id i))) := by
      split
      · exact ((Quiet.refl s).log_trans
          (Event.fs_set_blk_dev (cstr "usb") (scan_dev_id i)) rfl).log_trans
            Event.ext4_read_superblock rfl
      · exact (Quiet.refl s).log_trans (Event.fs_set_blk_dev (cstr "usb") (scan_dev_id i)) rfl
    simp only [gather_partition_info_loop]
    split
    · split
      · exact hq.trans (ih _ _ _ _)
      · exact hq.trans (ih _ _ _ _)
    · exact Quiet.refl s

theorem wpl_scan_quiet (w : World) (os_list : Memory) (s : State) :
    Quiet s (wpl_scan w os_list s).2.2 :=
  (check_usb_storage_quiet w s).trans (gather_loop_quiet w 16 1 0 os_list _)

theorem wpl_menu_quiet (w : World) (fuel : Nat) (os_list : Memory) (s : State) :
    Quiet s (wpl_menu w fuel os_list s).2 :=
  ((wpl_scan_quiet w os_list s).log_trans (Event.run_command (cstr "cls")) (by decide)).trans
    (display_menu_quiet w _ _ fuel _)

/-! ## The boot pipeline -/

theorem boot_steps_fdt_fail (w : World) (os_list : Nat → os_liste) (addr : Option CStr)
    (n : Int) (s : State) (h : w.run_command load_fdt_cmd ≠ 0) :
    (boot_steps w os_list addr n s).1 = Outcome.returned (-1) ∧
      (boot_steps w os_list addr n s).2.env = s.env ∧
      ∃ l, (boot_steps w os_list addr n s).2.trace = s.trace ++ l ∧
        stages l = [Stage.load_descriptor] := by
  simp only [boot_steps, h, ne_eq, not_false_eq_true, if_true, State.log, List.append_assoc,
    true_and]
  exact ⟨_, rfl, rfl⟩

theorem boot_steps_kernel_fail (w : World) (os_list : Nat → os_liste) (addr : Option CStr)
    (n : Int) (s : State) (h : w.run_command load_fdt_cmd = 0)
    (hk : w.run_command load_kernel_cmd ≠ 0) :
    (boot_steps w os_list addr n s).1 = Outcome.returned (-1) ∧
      (boot_steps w os_list addr n s).2.env = s.env ∧
      ∃ l, (boot_steps w os_list addr n s).2.trace = s.trace ++ l ∧
        stages l = [Stage.load_descriptor, Stage.load_kernel] := by
  simp only [boot_steps, h, hk, ne_eq, not_true_eq_false, not_false_eq_true, if_true, if_false,
    State.log, List.append_assoc, true_and]
  exact ⟨_, rfl, rfl⟩

theorem boot_steps_loaded (w : World) (os_list : Nat → os_liste) (addr : Option CStr)
    (n : Int) (s : State) (h : w.run_command load_fdt_cmd = 0)
    (hk : w.run_command load_kernel_cmd = 0) :
    (boot_steps w os_list addr n s).2.env (cstr "bootargs") =
        some (bootargs (chosen_partition os_list n) addr) ∧
      (∀ name, name ≠ cstr "bootargs" → (boot_steps w os_list addr n s).2.env name = s.env name) ∧
      ∃ post, (boot_steps w os_list addr n s).2.trace =
          s.trace ++ pipeline_calls (chosen_partition os_list n) addr ++ post ∧
        ((w.ext4fs_exists (path_dev_id (chosen_partition os_list n)) (cstr "/etc/fstab") ≠ 1 ∧
            (boot_steps w os_list addr n s).1 = Outcome.returned (-1) ∧ stages post = []) ∨
          (w.ext4fs_exists (path_dev_id (chosen_partition os_list n)) (cstr "/etc/fstab") = 1 ∧
            stages post = [Stage.handoff] ∧
            (boot_steps w os_list addr n s).1 =
              match w.bootz with
              | none => Outcome.booted
              | some rc => if rc ≠ 0 then Outcome.returned (-1) else Outcome.returned 0)) := by
  by_cases he : w.ext4fs_exists (path_dev_id (chosen_partition os_list n)) (cstr "/etc/fstab") = 1
  · have he1 : w.ext4fs_exists (path_dev_id (os_list (n - 1).toNat).boot_partition)
        (cstr "/etc/fstab") = 1 := he
    cases hb : w.bootz with
    | none =>
      simp only [boot_steps, h, hk, he1, hb, ne_eq, not_true_eq_false, if_false,
        check_for_filename, chosen_partition]
      refine ⟨by simp [State.log], fun name hname => by simp [State.log, hname],
        [Event.run_command bootz_cmd], ?_, Or.inr ⟨trivial, rfl, trivial⟩⟩
      simp [State.log, pipeline_calls, chosen_partition]
    | some rc =>
      by_cases hrc : rc = 0
      · simp only [boot_steps, h, hk, he1, hb, hrc, ne_eq, not_true_eq_false, if_false,
          check_for_filename, chosen_partition]
        refine ⟨by simp [State.log], fun name hname => by simp [State.log, hname],
          [Event.run_command bootz_cmd], ?_, Or.inr ⟨trivial, rfl, trivial⟩⟩
        simp [State.log, pipeline_calls, chosen_partition]
      · simp only [boot_steps, h, hk, he1, hb, hrc, ne_eq, not_true_eq_false, not_false_eq_true,
          if_false, if_true, check_for_filename, chosen_partition]
        refine ⟨by simp [State.log], fun name hname => by simp [State.log, hname],
          [Event.run_command bootz_cmd, Event.printf
            (cstr "Could not boot kernel, rc=" ++ fmt_d rc ++ cstr "\n")], ?_,
          Or.inr ⟨trivial, rfl, trivial⟩⟩
        simp [State.log, pipeline_calls, chosen_partition]
  · have he1 : ¬ w.ext4fs_exists (path_dev_id (os_list (n - 1).toNat).boot_partition)
        (cstr "/etc/fstab") = 1 := he
    simp only [boot_steps, h, hk, he1, ne_eq, not_true_eq_false, not_false_eq_true, if_false,
      if_true, check_for_filename, chosen_partition]
    refine ⟨by simp [State.log], fun name hname => by simp [State.log, hname],
      [Event.printf (cstr "File /etc/fstab does not exist in partition " ++
        (os_list (n - 1).toNat).boot_partition ++ cstr "\n")], ?_,
      Or.inl ⟨trivial, trivial, rfl⟩⟩
    simp [State.log, pipeline_calls, chosen_partition]

theorem wpl_cmd_none (w : World) (fuel : Nat) (os_list : Memory) (s : State)
    (h : (wpl_menu w fuel os_list s).1 = none) :
    wpl_cmd w fuel os_list s = (Outcome.looping, (wpl_menu w fuel os_list s).2) := by
  simp only [wpl_cmd, h]

theorem wpl_cmd_some (w : World) (fuel : Nat) (os_list : Memory) (s : State) (n : Int)
    (h : (wpl_menu w fuel os_list s).1 = some n) :
    wpl_cmd w fuel os_list s =
      boot_steps w (wpl_scan w os_list s).2.1 (s.env (cstr "usbethaddr")) n
        (wpl_menu w fuel os_list s).2 := by
  simp only [wpl_cmd, h]

theorem drop_own_length (a b : List Event) : (a ++ b).drop a.length = b := by simp

theorem wpl_cmd_stages (w : World) (fuel : Nat) (os_list : Memory) (s : State) :
    ((wpl_menu w fuel os_list s).1 = none ∧ (wpl_cmd w fuel os_list s).1 = Outcome.looping ∧
        stages (wpl_calls w fuel os_list s) = []) ∨
      ∃ n, (wpl_menu w fuel os_list s).1 = some n ∧
        ((w.run_command load_fdt_cmd ≠ 0 ∧
            (wpl_cmd w fuel os_list s).1 = Outcome.returned (-1) ∧
            stages (wpl_calls w fuel os_list s) = pipeline.take 1) ∨
          (w.run_command load_fdt_cmd = 0 ∧ w.run_command load_kernel_cmd ≠ 0 ∧
            (wpl_cmd w fuel os_list s).1 = Outcome.returned (-1) ∧
            stages (wpl_calls w fuel os_list s) = pipeline.take 2) ∨
          (w.run_command load_fdt_cmd = 0 ∧ w.run_command load_kernel_cmd = 0 ∧
            wpl_marker w os_list s n ≠ 1 ∧
            (wpl_cmd w fuel os_list s).1 = Outcome.returned (-1) ∧
            stages (wpl_calls w fuel os_list s) = pipeline.take 4) ∨
          (w.run_command load_fdt_cmd = 0 ∧ w.run_command load_kernel_cmd = 0 ∧
            wpl_marker w os_list s n = 1 ∧
            stages (wpl_calls w fuel os_list s) = pipeline ∧
            (wpl_cmd w fuel os_list s).1 =
              match w.bootz with
              | none => Outcome.booted
              | some rc => if rc ≠ 0 then Outcome.returned (-1) else Outcome.returned 0)) := by
  obtain ⟨l0, ht0, hs0, _⟩ := wpl_menu_quiet w fuel os_list s
  cases hm : (wpl_menu w fuel os_list s).1 with
  | none =>
    left
    refine ⟨rfl, ?_, ?_⟩
    · rw [wpl_cmd_none w fuel os_list s hm]
    · unfold wpl_calls
      rw [wpl_cmd_none w fuel os_list s hm]
      simp only
      rw [ht0, drop_own_length, hs0]
  | some n =>
    right
    refine ⟨n, rfl, ?_⟩
    have hcalls : ∀ l, (wpl_cmd w fuel os_list s).2.trace = (wpl_menu w fuel os_list s).2.trace ++ l →
        stages (wpl_calls w fuel os_list s) = stages l := by
      intro l hl
      unfold wpl_calls
      rw [hl, ht0, List.append_assoc, drop_own_length, stages_append, hs0]
      rfl
    rw [wpl_cmd_some w fuel os_list s n hm] at hcalls ⊢
    by_cases hf : w.run_command load_fdt_cmd = 0
    · by_cases hk : w.run_command load_kernel_cmd = 0
      · obtain ⟨_, _, post, htr, hcase⟩ := boot_steps_loaded w (wpl_scan w os_list s).2.1
          (s.env (cstr "usbethaddr")) n (wpl_menu w fuel os_list s).2 hf hk
        rw [List.append_assoc] at htr
        have hst := hcalls _ htr
        rw [stages_append] at hst
        rcases hcase with ⟨he, hout, hpost⟩ | ⟨he, hpost, hout⟩
        · right; right; left
          refine ⟨hf, hk, he, hout, ?_⟩
          rw [hst, hpost]
          rfl
        · right; right; right
          refine ⟨hf, hk, he, ?_, hout⟩
          rw [hst, hpost]
          rfl
      · obtain ⟨hout, _, l, htr, hst⟩ := boot_steps_kernel_fail w (wpl_scan w os_list s).2.1
          (s.env (cstr "usbethaddr")) n (wpl_menu w fuel os_list s).2 hf hk
        right; left
        exact ⟨hf, hk, hout, by rw [hcalls l htr, hst]; rfl⟩
    · obtain ⟨hout, _, l, htr, hst⟩ := boot_steps_fdt_fail w (wpl_scan w os_list s).2.1
        (s.env (cstr "usbethaddr")) n (wpl_menu w fuel os_list s).2 hf
      left
      exact ⟨hf, hout, by rw [hcalls l htr, hst]; rfl⟩

/-- Claim C2: the stages started by a run of `wpl_cmd` are an initial part of the
fixed order load-descriptor, load-kernel, set-bootargs, check-marker, handoff.
The kernel load is started only after the descriptor load returned 0; the boot
arguments are set and the marker is checked only after the kernel load returned
0 too; the handoff is started only after the marker check answered 1 for the
chosen partition. When the marker check on the chosen partition does not answer
1, `wpl_cmd` returns -1 and starts no handoff. -/
theorem wpl_cmd_stage_order (w : World) (fuel : Nat) (os_list : Memory) (s : State) :
    (∃ k, stages (wpl_calls w fuel os_list s) = pipeline.take k) ∧
      (Stage.load_kernel ∈ stages (wpl_calls w fuel os_list s) →
        w.run_command load_fdt_cmd = 0) ∧
      (Stage.set_bootargs ∈ stages (wpl_calls w fuel os_list s) →
        w.run_command load_fdt_cmd = 0 ∧ w.run_command load_kernel_cmd = 0) ∧
      (Stage.check_marker ∈ stages (wpl_calls w fuel os_list s) →
        w.run_command load_fdt_cmd = 0 ∧ w.run_command load_kernel_cmd = 0) ∧
      (Stage.handoff ∈ stages (wpl_calls w fuel os_list s) →
        w.run_command load_fdt_cmd = 0 ∧ w.run_command load_kernel_cmd = 0 ∧
        ∃ n, (wpl_menu w fuel os_list s).1 = some n ∧ wpl_marker w os_list s n = 1) ∧
      (∀ n, (wpl_menu w fuel os_list s).1 = some n → wpl_marker w os_list s n ≠ 1 →
        (wpl_cmd w fuel os_list s).1 = Outcome.returned (-1) ∧
        Stage.handoff ∉ stages (wpl_calls w fuel os_list s)) := by
  rcases wpl_cmd_stages w fuel os_list s with ⟨hm, _, hst⟩ |
    ⟨n, hm, ⟨hf, hout, hst⟩ | ⟨hf, hk, hout, hst⟩ | ⟨hf, hk, he, hout, hst⟩ |
      ⟨hf, hk, he, hst, hout⟩⟩
  · rw [hst]
    refine ⟨⟨0, rfl⟩, by simp, by simp, by simp, by simp, ?_⟩
    intro n hn
    rw [hm] at hn
    exact absurd hn (by simp)
  · rw [hst]
    refine ⟨⟨1, rfl⟩, by simp [pipeline], by simp [pipeline], by simp [pipeline],
      by simp [pipeline], ?_⟩
    intro n' _ _
    exact ⟨hout, by simp [pipeline]⟩
  · rw [hst]
    refine ⟨⟨2, rfl⟩, fun _ => hf, by simp [pipeline], by simp [pipeline],
      by simp [pipeline], ?_⟩
    intro n' _ _
    exact ⟨hout, by simp [pipeline]⟩
  · rw [hst]
    refine ⟨⟨4, rfl⟩, fun _ => hf, fun _ => ⟨hf, hk⟩, fun _ => ⟨hf, hk⟩,
      by simp [pipeline], ?_⟩
    intro n' _ _
    exact ⟨hout, by simp [pipeline]⟩
  · rw [hst]
    refine ⟨⟨5, rfl⟩, fun _ => hf, fun _ => ⟨hf, hk⟩, fun _ => ⟨hf, hk⟩,
      fun _ => ⟨hf, hk, n, hm, he⟩, ?_⟩
    intro n' hn' he'
    rw [hm] at hn'
    simp only [Option.some.injEq] at hn'
    subst hn'
    exact absurd he he'

/-- Witness of C2: partitions 1 and 4 are recognized, the operator types `2`, and
`/etc/fstab` is missing: the run stops after the marker check with -1 and never
starts the handoff. -/
theorem wpl_cmd_stage_order_witness :
    (wpl_cmd ((World.sample [(1, cstr "Alpine"), (4, cstr "Debian")]
        fun n => if n = 0 then some 50 else none).without_marker) 1 os_list_zero State.init).1
        = Outcome.returned (-1) ∧
      Stage.handoff ∉ stages (wpl_calls ((World.sample [(1, cstr "Alpine"), (4, cstr "Debian")]
        fun n => if n = 0 then some 50 else none).without_marker) 1 os_list_zero State.init) :=
  (wpl_cmd_stage_order ((World.sample [(1, cstr "Alpine"), (4, cstr "Debian")]
    fun n => if n = 0 then some 50 else none).without_marker) 1 os_list_zero State.init).2.2.2.2.2
      2 (by decide) (by decide)

theorem display_menu_enters (w : World) (len : Int) (os_list : Nat → os_liste) (fuel : Nat)
    (s : State) :
    ∃ l, (display_menu w len os_list (fuel + 1) s).2.trace = s.trace ++ menu_heading :: l := by
  have hr : (render_menu len os_list s).trace = s.trace ++ menu_heading ::
      (menu_lines len os_list ++ [Event.printf (cstr "Enter selection number ... \n\n")]) := by
    simp [render_menu, menu_heading]
  obtain ⟨l1, h1, _, _⟩ := master_sleep_quiet w (render_menu len os_list s)
  rw [display_menu_succ]
  split
  · exact ⟨_, by rw [h1, hr, List.append_assoc, List.cons_append]⟩
  · obtain ⟨l2, h2, _, _⟩ := display_menu_quiet w len os_list fuel
      ((master_sleep w (render_menu len os_list s)).2.log
        (Event.printf (cstr "Invalid selection, please try again ...\n")))
    refine ⟨(menu_lines len os_list ++ [Event.printf (cstr "Enter selection number ... \n\n")]) ++
      l1 ++ [Event.printf (cstr "Invalid selection, please try again ...\n")] ++ l2, ?_⟩
    rw [h2]
    simp only [State.log]
    rw [h1, hr]
    simp only [List.append_assoc, List.cons_append]

/-- Claim C3, the run that contradicts it: no partition is recognized, so the scan
returns 0, and `wpl_cmd` does not return: it enters `display_menu`, prints the
heading, polls the console 199 times, and is still in the menu after one round
and after three. -/
theorem wpl_cmd_empty_list_enters_menu :
    (wpl_scan (World.sample [] fun _ => none) os_list_zero State.init).1 = 0 ∧
      (wpl_cmd (World.sample [] fun _ => none) 1 os_list_zero State.init).1 = Outcome.looping ∧
      menu_heading ∈ (wpl_cmd (World.sample [] fun _ => none) 1 os_list_zero State.init).2.trace ∧
      (wpl_cmd (World.sample [] fun _ => none) 1 os_list_zero State.init).2.polls = 199 ∧
      (wpl_cmd (World.sample [] fun _ => none) 3 os_list_zero State.init).1 = Outcome.looping ∧
      ¬ ∃ rc, (wpl_cmd (World.sample [] fun _ => none) 3 os_list_zero State.init).1 =
        Outcome.returned rc := by
  refine ⟨by decide, by decide, by decide, by decide, by decide, ?_⟩
  rintro ⟨rc, h⟩
  have h3 : (wpl_cmd (World.sample [] fun _ => none) 3 os_list_zero State.init).1 =
      Outcome.looping := by decide
  rw [h3] at h
  exact Outcome.noConfusion h

/-- Claim C3 as amended: when the scan returns 0, `wpl_cmd` has no guard: it
enters `display_menu` (the heading is printed), no round of the menu returns a
selection whatever the console delivers, so for every bound on the rounds
`wpl_cmd` is still in the menu; it has started no stage of the pipeline and has
left the environment as it was. -/
theorem wpl_cmd_empty_list (w : World) (fuel : Nat) (os_list : Memory) (s : State)
    (h : (wpl_scan w os_list s).1 = 0) :
    (wpl_menu w fuel os_list s).1 = none ∧
      (wpl_cmd w fuel os_list s).1 = Outcome.looping ∧
      stages (wpl_calls w fuel os_list s) = [] ∧
      (wpl_cmd w fuel os_list s).2.env = s.env ∧
      menu_heading ∈ wpl_calls w (fuel + 1) os_list s := by
  have hnone : ∀ f, (wpl_menu w f os_list s).1 = none := by
    intro f
    cases hm : (wpl_menu w f os_list s).1 with
    | none => rfl
    | some n =>
      have := display_menu_range w _ _ f _ n hm
      rw [h] at this
      omega
  refine ⟨hnone fuel, ?_, ?_, ?_, ?_⟩
  · rw [wpl_cmd_none w fuel os_list s (hnone fuel)]
  · rcases wpl_cmd_stages w fuel os_list s with ⟨_, _, hst⟩ | ⟨n, hm, _⟩
    · exact hst
    · rw [hnone fuel] at hm
      exact absurd hm (by simp)
  · rw [wpl_cmd_none w fuel os_list s (hnone fuel)]
    exact (wpl_menu_quiet w fuel os_list s).choose_spec.2.2
  · unfold wpl_calls
    rw [wpl_cmd_none w (fuel + 1) os_list s (hnone (fuel + 1))]
    obtain ⟨l0, h0, _, _⟩ := (wpl_scan_quiet w os_list s).log_trans
      (Event.run_command (cstr "cls")) (by decide)
    obtain ⟨l, hl⟩ := display_menu_enters w (wpl_scan w os_list s).1 (wpl_scan w os_list s).2.1
      fuel ((wpl_scan w os_list s).2.2.log (Event.run_command (cstr "cls")))
    simp only [wpl_menu]
    rw [hl, h0, List.append_assoc, drop_own_length]
    simp

/-- Witness of C3 as amended: a disk without any ext4 partition and a silent
console, three rounds. -/
theorem wpl_cmd_empty_list_witness :
    (wpl_cmd (World.sample [] fun _ => none) 3 os_list_zero State.init).1 = Outcome.looping ∧
      stages (wpl_calls (World.sample [] fun _ => none) 3 os_list_zero State.init) = [] :=
  ⟨(wpl_cmd_empty_list (World.sample [] fun _ => none) 3 os_list_zero State.init
      (by decide)).2.1,
    (wpl_cmd_empty_list (World.sample [] fun _ => none) 3 os_list_zero State.init
      (by decide)).2.2.1⟩

theorem wpl_menu_selection (w : World) (fuel : Nat) (os_list : Memory) (s : State)
    (n : Int) (hm : (wpl_menu w fuel os_list s).1 = some n) :
    1 ≤ n ∧ n ≤ ((recognized_indices w).length : Int) ∧
      ∃ i, (recognized_indices w)[(n - 1).toNat]? = some i ∧ (1 ≤ i ∧ i ≤ 15) ∧
        wpl_chosen w os_list s n = scan_path i := by
  have hr := display_menu_range w _ _ fuel _ n hm
  obtain ⟨h1, h2, _, _⟩ := gather_partition_info_spec w os_list (check_usb_storage w s)
  have hlen : (wpl_scan w os_list s).1 = (recognized_indices w).length := h1
  rw [hlen] at hr
  have hq : (n - 1).toNat < (recognized_indices w).length := by omega
  refine ⟨hr.1, hr.2, (recognized_indices w)[(n - 1).toNat], List.getElem?_eq_getElem hq, ?_, ?_⟩
  · exact ((mem_recognized_indices w _).1 (List.getElem_mem hq)).1
  · exact h2 (n - 1).toNat _ (List.getElem?_eq_getElem hq)

/-- Claim C9: when the menu returns selection `n` and both loads succeed, `n`
designates the `n`-th recognized partition `i` in scan order; `wpl_cmd` publishes
as `bootargs` the parameter string in which `root=` is immediately followed by
the device path `/dev/sda<i>` of that candidate, and the marker check that
follows selects the device of that same path, `0:<i in hexadecimal>`, and asks
it for `/etc/fstab`. -/
theorem wpl_cmd_boots_selection (w : World) (fuel : Nat) (os_list : Memory) (s : State)
    (n : Int) (hm : (wpl_menu w fuel os_list s).1 = some n)
    (hf : w.run_command load_fdt_cmd = 0) (hk : w.run_command load_kernel_cmd = 0) :
    ∃ i, (recognized_indices w)[(n - 1).toNat]? = some i ∧ 1 ≤ n ∧
      ((wpl_scan w os_list s).2.1 (n - 1).toNat).boot_partition = scan_path i ∧
      (wpl_cmd w fuel os_list s).2.env (cstr "bootargs") =
        some (bootargs_head ++ cstr "root=" ++ (cstr "/dev/sda" ++ fmt_d (i : Int)) ++
          cstr " smsc95xx.macaddr=" ++ fmt_s (s.env (cstr "usbethaddr"))) ∧
      ∃ pre post, wpl_calls w fuel os_list s = pre ++
        [Event.setenv (cstr "bootargs")
            (bootargs_head ++ cstr "root=" ++ (cstr "/dev/sda" ++ fmt_d (i : Int)) ++
              cstr " smsc95xx.macaddr=" ++ fmt_s (s.env (cstr "usbethaddr"))),
          Event.printf (cstr "setenv bootargs " ++
            bootargs (scan_path i) (s.env (cstr "usbethaddr")) ++ cstr "\n"),
          Event.mdelay 2000,
          Event.fs_set_blk_dev (cstr "usb") (scan_dev_id i),
          Event.ext4fs_exists (cstr "/etc/fstab")] ++ post := by
  obtain ⟨h1, _, i, hi, hi15, hch⟩ := wpl_menu_selection w fuel os_list s n hm
  have hcand : ((wpl_scan w os_list s).2.1 (n - 1).toNat).boot_partition = scan_path i :=
    (gather_partition_info_spec w os_list (check_usb_storage w s)).2.1 _ _ hi
  obtain ⟨henv, _, post, htr, _⟩ := boot_steps_loaded w (wpl_scan w os_list s).2.1
    (s.env (cstr "usbethaddr")) n (wpl_menu w fuel os_list s).2 hf hk
  have hch1 : chosen_partition (wpl_scan w os_list s).2.1 n = scan_path i := hch
  rw [hch1] at henv htr
  obtain ⟨l0, ht0, _, _⟩ := wpl_menu_quiet w fuel os_list s
  refine ⟨i, hi, h1, hcand, ?_, l0 ++ [Event.run_command load_fdt_cmd,
    Event.run_command load_kernel_cmd], post, ?_⟩
  · rw [wpl_cmd_some w fuel os_list s n hm, henv]
    rfl
  · unfold wpl_calls
    rw [wpl_cmd_some w fuel os_list s n hm, htr, ht0, List.append_assoc, List.append_assoc,
      drop_own_length]
    simp only [pipeline_calls, path_dev_id_scan_path i hi15.1 hi15.2]
    simp [bootargs, scan_path]

/-- Witness of C9: partitions 1 and 4 are recognized with the names Alpine and
Debian and the operator types `2`: the root device is `/dev/sda4` and the marker
check selects `0:4`. -/
theorem wpl_cmd_boots_selection_witness :
    (∃ i, (recognized_indices (World.sample [(1, cstr "Alpine"), (4, cstr "Debian")]
          fun n => if n = 0 then some 50 else none))[((2 : Int) - 1).toNat]? = some i ∧
        (1 : Int) ≤ 2 ∧
        ((wpl_scan (World.sample [(1, cstr "Alpine"), (4, cstr "Debian")]
          fun n => if n = 0 then some 50 else none) os_list_zero State.init).2.1
            ((2 : Int) - 1).toNat).boot_partition = scan_path i ∧
        (wpl_cmd (World.sample [(1, cstr "Alpine"), (4, cstr "Debian")]
          fun n => if n = 0 then some 50 else none) 1 os_list_zero State.init).2.env
            (cstr "bootargs") =
          some (bootargs_head ++ cstr "root=" ++ (cstr "/dev/sda" ++ fmt_d (i : Int)) ++
            cstr " smsc95xx.macaddr=" ++ fmt_s (State.init.env (cstr "usbethaddr"))) ∧
        ∃ pre post, wpl_calls (World.sample [(1, cstr "Alpine"), (4, cstr "Debian")]
            fun n => if n = 0 then some 50 else none) 1 os_list_zero State.init = pre ++
          [Event.setenv (cstr "bootargs")
              (bootargs_head ++ cstr "root=" ++ (cstr "/dev/sda" ++ fmt_d (i : Int)) ++
                cstr " smsc95xx.macaddr=" ++ fmt_s (State.init.env (cstr "usbethaddr"))),
            Event.printf (cstr "setenv bootargs " ++
              bootargs (scan_path i) (State.init.env (cstr "usbethaddr")) ++ cstr "\n"),
            Event.mdelay 2000,
            Event.fs_set_blk_dev (cstr "usb") (scan_dev_id i),
            Event.ext4fs_exists (cstr "/etc/fstab")] ++ post) ∧
      recognized_indices (World.sample [(1, cstr "Alpine"), (4, cstr "Debian")]
        fun n => if n = 0 then some 50 else none) = [1, 4] ∧
      (wpl_cmd (World.sample [(1, cstr "Alpine"), (4, cstr "Debian")]
        fun n => if n = 0 then some 50 else none) 1 os_list_zero State.init).2.env
          (cstr "bootargs") =
        some (bootargs_head ++ cstr "root=/dev/sda4 smsc95xx.macaddr=<NULL>") ∧
      Event.fs_set_blk_dev (cstr "usb") (cstr "0:4") ∈
        calls_from_setenv (wpl_calls (World.sample [(1, cstr "Alpine"), (4, cstr "Debian")]
          fun n => if n = 0 then some 50 else none) 1 os_list_zero State.init) :=
  ⟨wpl_cmd_boots_selection (World.sample [(1, cstr "Alpine"), (4, cstr "Debian")]
      fun n => if n = 0 then some 50 else none) 1 os_list_zero State.init 2
      (by decide) (by decide) (by decide),
    by decide, by decide, by decide⟩

/-! ## The storage presence guard -/

theorem check_usb_storage_loop_fail (w : World) (fuel n : Nat) (rc retry_count : Int)
    (s : State) (hrc : rc ≠ 0) (hfail : w.usb_storage n ≠ 0) :
    check_usb_storage_loop w (fuel + 1) n rc retry_count s =
      if retry_count - 1 = 0 then
        { s with trace := s.trace ++ usb_failed_attempt ++ [usb_exhausted] }
      else
        check_usb_storage_loop w fuel (n + 1) (w.usb_storage n) (retry_count - 1)
          { s with trace := s.trace ++ usb_failed_attempt } := by
  simp only [check_usb_storage_loop, hrc, hfail, ne_eq, not_false_eq_true, if_true, State.log,
    usb_failed_attempt, usb_exhausted, List.append_assoc, List.singleton_append,
    List.cons_append, List.nil_append]

theorem check_usb_storage_loop_success (w : World) (fuel n : Nat) (rc retry_count : Int)
    (s : State) (hrc : rc ≠ 0) (hok : w.usb_storage n = 0) :
    check_usb_storage_loop w (fuel + 2) n rc retry_count s =
      { s with trace := s.trace ++ [Event.run_command (cstr "usb storage")] } := by
  simp only [check_usb_storage_loop, hrc, hok, ne_eq, not_false_eq_true, not_true_eq_false,
    if_true, if_false, State.log]

theorem check_usb_storage_loop_spec (w : World) :
    ∀ (r fuel n : Nat) (rc : Int) (s : State), rc ≠ 0 → r + 2 ≤ fuel →
      check_usb_storage_loop w fuel n rc ((r : Int) + 1) s =
        { s with
          trace := s.trace ++ usb_failed_attempts (usb_failures_from w (r + 1) n) ++
            (if usb_failures_from w (r + 1) n < r + 1 then
              [Event.run_command (cstr "usb storage")] else [usb_exhausted]) } := by
  intro r
  induction r with
  | zero =>
    intro fuel n rc s hrc hf
    obtain ⟨f, rfl⟩ : ∃ f, fuel = f + 2 := ⟨fuel - 2, by omega⟩
    by_cases hu : w.usb_storage n = 0
    · rw [check_usb_storage_loop_success w f n rc _ s hrc hu]
      simp [usb_failures_from, hu, usb_failed_attempts]
    · rw [check_usb_storage_loop_fail w (f + 1) n rc _ s hrc hu]
      simp [usb_failures_from, hu, usb_failed_attempts]
  | succ r ih =>
    intro fuel n rc s hrc hf
    obtain ⟨f, rfl⟩ : ∃ f, fuel = f + 2 := ⟨fuel - 2, by omega⟩
    by_cases hu : w.usb_storage n = 0
    · rw [check_usb_storage_loop_success w f n rc _ s hrc hu]
      have h0 : usb_failures_from w (r + 1 + 1) n = 0 := by
        simp [usb_failures_from, hu]
      rw [h0]
      simp [usb_failed_attempts]
    · rw [check_usb_storage_loop_fail w (f + 1) n rc _ s hrc hu]
      have hne : ¬ (((r + 1 : Nat) : Int) + 1 - 1 = 0) := by omega
      rw [if_neg hne]
      have hcast : ((r + 1 : Nat) : Int) + 1 - 1 = (r : Int) + 1 := by omega
      rw [hcast, ih (f + 1) (n + 1) (w.usb_storage n) _ hu (by omega)]
      have h1 : usb_failures_from w (r + 1 + 1) n = usb_failures_from w (r + 1) (n + 1) + 1 := by
        conv_lhs => rw [usb_failures_from]
        rw [if_pos hu]
      rw [h1]
      have hlt : (usb_failures_from w (r + 1) (n + 1) + 1 < r + 1 + 1) ↔
          (usb_failures_from w (r + 1) (n + 1) < r + 1) := by omega
      simp only [usb_failed_attempts, List.append_assoc, hlt]

theorem usb_failures_from_spec (w : World) :
    ∀ (r n : Nat), usb_failures_from w r n ≤ r ∧
      (∀ t, t < usb_failures_from w r n → w.usb_storage (n + t) ≠ 0) ∧
      (usb_failures_from w r n < r → w.usb_storage (n + usb_failures_from w r n) = 0) := by
  intro r
  induction r with
  | zero => intro n; simp [usb_failures_from]
  | succ r ih =>
    intro n
    obtain ⟨h1, h2, h3⟩ := ih (n + 1)
    by_cases hu : w.usb_storage n = 0
    · have h0 : usb_failures_from w (r + 1) n = 0 := by simp [usb_failures_from, hu]
      rw [h0]
      exact ⟨by omega, fun t ht => absurd ht (by omega), fun _ => hu⟩
    · have hs : usb_failures_from w (r + 1) n = usb_failures_from w r (n + 1) + 1 := by
        conv_lhs => rw [usb_failures_from]
        rw [if_pos hu]
      rw [hs]
      refine ⟨by omega, ?_, ?_⟩
      · intro t ht
        cases t with
        | zero => exact hu
        | succ t =>
          have := h2 t (by omega)
          rwa [show n + 1 + t = n + (t + 1) by omega] at this
      · intro hlt
        have := h3 (by omega)
        rwa [show n + 1 + usb_failures_from w r (n + 1) =
          n + (usb_failures_from w r (n + 1) + 1) by omega] at this

theorem usb_attempts_failed (m : Nat) (l : List Event) :
    usb_attempts (usb_failed_attempts m ++ l) = m + usb_attempts l := by
  induction m with
  | zero => simp [usb_failed_attempts]
  | succ m ih =>
    have hstep : usb_attempts (usb_failed_attempts (m + 1) ++ l) =
        usb_attempts (usb_failed_attempts m ++ l) + 1 := by
      simp only [usb_failed_attempts, usb_failed_attempt, usb_attempts, List.append_assoc,
        List.cons_append, List.nil_append]
      rw [List.count_cons_self, List.count_cons_of_ne (by decide),
        List.count_cons_of_ne (by decide), List.count_cons_of_ne (by decide)]
    rw [hstep, ih]
    omega

/-- Claim C11: `check_usb_storage` terminates (a larger bound on the iterations
changes nothing). With `m` the number of runs of `usb storage` that fail before
the first success among the first 10, its calls are `m` times the failed attempt
(the command, one delay of 2000 ms, one bus reset, the blank lines) followed by
the successful run alone when `m < 10`, and by the message that it gives up when
all 10 failed; it runs the command `min (m + 1) 10` times, at most 10. A failed
attempt decrements the retry counter, which starts at 10, and the loop goes on
with the decremented counter unless it has reached 0. -/
theorem check_usb_storage_bounded (w : World) (s : State) (k : Nat) :
    check_usb_storage_loop w (11 + k) 0 1 10 s = check_usb_storage w s ∧
      usb_failures w ≤ 10 ∧
      (∀ n, n < usb_failures w → w.usb_storage n ≠ 0) ∧
      (usb_failures w < 10 → w.usb_storage (usb_failures w) = 0) ∧
      check_usb_storage w s =
        { s with
          trace := s.trace ++ usb_failed_attempts (usb_failures w) ++
            (if usb_failures w < 10 then [Event.run_command (cstr "usb storage")]
              else [usb_exhausted]) } ∧
      usb_attempts ((check_usb_storage w s).trace.drop s.trace.length) =
        min (usb_failures w + 1) 10 ∧
      (∀ (fuel n : Nat) (rc retry_count : Int) (s1 : State), rc ≠ 0 → w.usb_storage n ≠ 0 →
        check_usb_storage_loop w (fuel + 1) n rc retry_count s1 =
          if retry_count - 1 = 0 then
            { s1 with trace := s1.trace ++ usb_failed_attempt ++ [usb_exhausted] }
          else
            check_usb_storage_loop w fuel (n + 1) (w.usb_storage n) (retry_count - 1)
              { s1 with trace := s1.trace ++ usb_failed_attempt }) := by
  have hspec : ∀ fuel, 11 ≤ fuel → check_usb_storage_loop w fuel 0 1 10 s =
      { s with
        trace := s.trace ++ usb_failed_attempts (usb_failures w) ++
          (if usb_failures w < 10 then [Event.run_command (cstr "usb storage")]
            else [usb_exhausted]) } := by
    intro fuel hfuel
    have := check_usb_storage_loop_spec w 9 fuel 0 1 s (by decide) (by omega)
    simpa [usb_failures] using this
  obtain ⟨h1, h2, h3⟩ := usb_failures_from_spec w 10 0
  have hrun : check_usb_storage w s = _ := hspec 11 (le_refl 11)
  refine ⟨?_, h1, ?_, ?_, hrun, ?_, ?_⟩
  · rw [hspec (11 + k) (by omega), hrun]
  · intro n hn
    simpa using h2 n hn
  · intro hlt
    simpa using h3 hlt
  · rw [hrun]
    simp only []
    rw [List.append_assoc, drop_own_length, usb_attempts_failed]
    by_cases hm : usb_failures w < 10
    · rw [if_pos hm]
      simp [usb_attempts]
      omega
    · rw [if_neg hm]
      have : usb_failures w = 10 := by
        have := h1
        unfold usb_failures at hm ⊢
        omega
      rw [this]
      decide
  · intro fuel n rc retry_count s1 hrc hfail
    exact check_usb_storage_loop_fail w fuel n rc retry_count s1 hrc hfail

/-- Witness of C11: the disk answers at the third run, and a disk that never
answers. -/
theorem check_usb_storage_bounded_witness :
    (check_usb_storage ((World.sample [] fun _ => none).with_usb
        fun n => if n < 2 then 1 else 0) State.init).trace =
        usb_failed_attempt ++ usb_failed_attempt ++ [Event.run_command (cstr "usb storage")] ∧
      usb_attempts (check_usb_storage ((World.sample [] fun _ => none).with_usb
        fun _ => 1) State.init).trace = 10 ∧
      (check_usb_storage ((World.sample [] fun _ => none).with_usb
        fun _ => 1) State.init).trace.getLast? = some usb_exhausted ∧
      check_usb_storage_loop ((World.sample [] fun _ => none).with_usb fun _ => 1) (11 + 5) 0 1 10
        State.init = check_usb_storage ((World.sample [] fun _ => none).with_usb fun _ => 1)
          State.init :=
  ⟨by decide, by decide, by decide,
    (check_usb_storage_bounded ((World.sample [] fun _ => none).with_usb fun _ => 1)
      State.init 5).1⟩

/-! ## The calls of the polling loop -/

theorem sleepy_check_trace (w : World) (s : State) :
    (sleepy_check w s).2.trace = s.trace ++ poll_calls (w.console s.polls) := by
  unfold sleepy_check poll_calls
  cases w.console s.polls <;> simp [State.log]

theorem master_sleep_loop_step (w : World) (base f t : Nat) (k rc : Int) (s : State)
    (ht : t + 1 < 200) (hp : s.polls = base + t) (hk : k = 19 - ((t / 10 : Nat) : Int))
    (hnq : qualifying (w.console (base + t)) = false) :
    ∃ rc1 s1, master_sleep_loop w (f + 1) (t + 1) k rc s =
        master_sleep_loop w f (t + 1 + 1) (19 - (((t + 1) / 10 : Nat) : Int)) rc1 s1 ∧
      s1.polls = base + (t + 1) ∧ s1.trace = s.trace ++ iteration_calls w base t := by
  have h0 := normalize_not_qualifying (w.console s.polls) (by rw [hp]; exact hnq)
  have hgt : ¬ (w.console s.polls).getD 0 > 32 := by
    have := h0.2
    rwa [h0.1] at this
  by_cases hten : (t + 1) % 10 = 0
  · refine ⟨(w.console s.polls).getD 0, (sleepy_check w s).2.log (Event.printf
      (cstr "booting in " ++ fmt_d k ++ cstr " seconds\r")), ?_, ?_, ?_⟩
    · have hk1 : k - 1 = 19 - (((t + 1) / 10 : Nat) : Int) := by omega
      simp only [master_sleep_loop, ht, if_true, sleepy_check_value, h0.1, hgt, if_false, hten,
        hk1]
    · rw [log_polls, sleepy_check_polls, hp]; omega
    · have hv : k = 20 - (((t + 1) / 10 : Nat) : Int) := by omega
      simp only [State.log, sleepy_check_trace, iteration_calls, hten, if_true, hp,
        countdown_text, hv, List.append_assoc]
  · refine ⟨(w.console s.polls).getD 0, (sleepy_check w s).2, ?_, ?_, ?_⟩
    · have hk1 : k = 19 - (((t + 1) / 10 : Nat) : Int) := by omega
      simp only [master_sleep_loop, ht, if_true, sleepy_check_value, h0.1, hgt, if_false, hten]
      rw [← hk1]
    · rw [sleepy_check_polls, hp]; omega
    · simp only [sleepy_check_trace, iteration_calls, hten, if_false, hp, List.append_nil]

theorem master_sleep_loop_trace_miss (w : World) (base : Nat) :
    ∀ (n fuel t : Nat) (k rc : Int) (s : State), t + n = 199 → n ≤ fuel →
      s.polls = base + t → k = 19 - ((t / 10 : Nat) : Int) →
      (∀ i, i < n → qualifying (w.console (base + t + i)) = false) →
      (master_sleep_loop w fuel (t + 1) k rc s).2.trace = s.trace ++ sleep_calls w base n t := by
  intro n
  induction n with
  | zero =>
    intro fuel t k rc s ht _ _ _ _
    have hres : master_sleep_loop w fuel (t + 1) k rc s = (rc, s) := by
      cases fuel with
      | zero => rfl
      | succ f =>
        have : ¬ t + 1 < 200 := by omega
        simp [master_sleep_loop, this]
    rw [hres]
    simp [sleep_calls]
  | succ n ih =>
    intro fuel t k rc s ht hf hp hk hnq
    obtain ⟨f, rfl⟩ : ∃ f, fuel = f + 1 := ⟨fuel - 1, by omega⟩
    obtain ⟨rc1, s1, hstep, hp1, htr1⟩ := master_sleep_loop_step w base f t k rc s (by omega) hp
      hk (by simpa using hnq 0 (by omega))
    rw [hstep, ih f (t + 1) _ rc1 s1 (by omega) (by omega) hp1 rfl, htr1]
    · simp [sleep_calls]
    · intro i hi
      have := hnq (i + 1) (by omega)
      rwa [show base + t + (i + 1) = base + (t + 1) + i by omega] at this

theorem master_sleep_loop_trace_hit (w : World) (base : Nat) (c : Int)
    (hc : qualifying (some c) = true) :
    ∀ (n fuel t : Nat) (k rc : Int) (s : State), t + n < 199 → n < fuel →
      s.polls = base + t → k = 19 - ((t / 10 : Nat) : Int) →
      (∀ i, i < n → qualifying (w.console (base + t + i)) = false) →
      w.console (base + t + n) = some c →
      (master_sleep_loop w fuel (t + 1) k rc s).2.trace =
        s.trace ++ sleep_calls w base n t ++ poll_calls (some c) := by
  intro n
  induction n with
  | zero =>
    intro fuel t k rc s ht hf hp _ _ hcon
    obtain ⟨f, rfl⟩ : ∃ f, fuel = f + 1 := ⟨fuel - 1, by omega⟩
    have hlt : t + 1 < 200 := by omega
    have hcon1 : w.console s.polls = some c := by rw [hp]; simpa using hcon
    have hv : (sleepy_check w s).1 = c := by rw [sleepy_check_value, hcon1]; rfl
    have hq := normalize_qualifying c hc
    simp only [master_sleep_loop, hlt, if_true, hv, hq, sleepy_check_trace, hcon1, sleep_calls,
      List.append_nil]
  | succ n ih =>
    intro fuel t k rc s ht hf hp hk hnq hcon
    obtain ⟨f, rfl⟩ : ∃ f, fuel = f + 1 := ⟨fuel - 1, by omega⟩
    obtain ⟨rc1, s1, hstep, hp1, htr1⟩ := master_sleep_loop_step w base f t k rc s (by omega) hp
      hk (by simpa using hnq 0 (by omega))
    rw [hstep, ih f (t + 1) _ rc1 s1 (by omega) (by omega) hp1 rfl, htr1]
    · simp [sleep_calls]
    · intro i hi
      have := hnq (i + 1) (by omega)
      rwa [show base + t + (i + 1) = base + (t + 1) + i by omega] at this
    · rwa [show base + (t + 1) + n = base + t + (n + 1) by omega]

theorem printed_append (t u : List Event) : printed (t ++ u) = printed t ++ printed u := by
  simp [printed, List.filterMap_append]

theorem printed_poll_calls (x : Option Int) : printed (poll_calls x) = [] := by
  cases x <;> rfl

theorem printed_iteration_calls (w : World) (base t : Nat) :
    printed (iteration_calls w base t) =
      if (t + 1) % 10 = 0 then [countdown_text (20 - (((t + 1) / 10 : Nat) : Int))] else [] := by
  unfold iteration_calls
  rw [printed_append, printed_poll_calls]
  split <;> rfl

theorem printed_sleep_calls (w : World) (base : Nat) :
    ∀ (n t : Nat), printed (sleep_calls w base n t) =
      (List.range' (t / 10 + 1) ((t + n) / 10 - t / 10)).map
        fun (i : Nat) => countdown_text (20 - (i : Int)) := by
  intro n
  induction n with
  | zero => intro t; simp [sleep_calls, printed]
  | succ n ih =>
    intro t
    rw [sleep_calls, printed_append, printed_iteration_calls, ih (t + 1)]
    by_cases hten : (t + 1) % 10 = 0
    · rw [if_pos hten]
      have h1 : (t + 1) / 10 = t / 10 + 1 := by omega
      have h2 : (t + (n + 1)) / 10 - t / 10 = ((t + 1 + n) / 10 - (t + 1) / 10) + 1 := by omega
      rw [h2, List.range'_succ, List.map_cons, h1]
      simp
    · rw [if_neg hten]
      have h1 : (t + 1) / 10 = t / 10 := by omega
      have h2 : (t + (n + 1)) / 10 - t / 10 = (t + 1 + n) / 10 - (t + 1) / 10 := by omega
      rw [h2, h1]
      simp

theorem tstc_count_sleep_calls (w : World) (base : Nat) :
    ∀ (n t : Nat), (sleep_calls w base n t).count Event.tstc = n := by
  intro n
  induction n with
  | zero => intro t; rfl
  | succ n ih =>
    intro t
    have hpoll : ∀ x : Option Int, (poll_calls x).count Event.tstc = 1 := by
      intro x
      cases x <;> rfl
    have hit : (iteration_calls w base t).count Event.tstc = 1 := by
      unfold iteration_calls
      rw [List.count_append, hpoll]
      split <;> simp
    rw [sleep_calls, List.count_append, hit, ih]
    omega

theorem master_sleep_trace_hit (w : World) (s : State) (n : Nat) (c : Int) (hn : n < 199)
    (hnq : ∀ i, i < n → qualifying (w.console (s.polls + i)) = false)
    (hc : w.console (s.polls + n) = some c) (hq : qualifying (some c) = true) :
    (master_sleep w s).2.trace = s.trace ++ sleep_calls w s.polls n 0 ++ poll_calls (some c) :=
  master_sleep_loop_trace_hit w s.polls c hq n 200 0 19 0 s (by omega) (by omega) rfl (by simp)
    (by simpa using hnq) (by simpa using hc)

theorem master_sleep_trace_miss (w : World) (s : State)
    (hnq : ∀ i, i < 199 → qualifying (w.console (s.polls + i)) = false) :
    (master_sleep w s).2.trace = s.trace ++ sleep_calls w s.polls 199 0 :=
  master_sleep_loop_trace_miss w s.polls 199 200 0 19 0 s (by omega) (by omega) rfl (by simp)
    (by simpa using hnq)

/-! ## The status returned by the command -/

/-- Claim C12, the run that contradicts it: one candidate, every step succeeds and
the command `bootz` returns the status 0 instead of booting. `wpl_cmd` has run
the whole pipeline and returns 0 to its caller. -/
theorem wpl_cmd_returns_zero :
    ((World.sample [(1, cstr "Alpine")] fun _ => none).with_bootz 0).bootz = some 0 ∧
      (wpl_cmd ((World.sample [(1, cstr "Alpine")] fun _ => none).with_bootz 0) 1 os_list_zero
        State.init).1 = Outcome.returned 0 ∧
      stages (wpl_calls ((World.sample [(1, cstr "Alpine")] fun _ => none).with_bootz 0) 1
        os_list_zero State.init) = pipeline := by
  refine ⟨rfl, by decide, by decide⟩

/-- Claim C12 as amended: a status that `wpl_cmd` returns to its caller is -1 or
0. It is 0 exactly when the whole pipeline has run and the command `bootz` itself
returned 0; when `bootz` returns a non-zero status, and on every other failure,
`wpl_cmd` returns -1. -/
theorem wpl_cmd_return_status (w : World) (fuel : Nat) (os_list : Memory) (s : State)
    (rc : Int) (h : (wpl_cmd w fuel os_list s).1 = Outcome.returned rc) :
    (rc = -1 ∨ rc = 0) ∧
      (rc = 0 ↔ w.bootz = some 0 ∧ stages (wpl_calls w fuel os_list s) = pipeline) ∧
      (∀ b, w.bootz = some b → b ≠ 0 → rc = -1) := by
  rcases wpl_cmd_stages w fuel os_list s with ⟨_, hout, _⟩ |
    ⟨n, hm, ⟨hf, hout, hst⟩ | ⟨hf, hk, hout, hst⟩ | ⟨hf, hk, he, hout, hst⟩ |
      ⟨hf, hk, he, hst, hout⟩⟩
  · rw [hout] at h
    exact Outcome.noConfusion h
  · rw [hout] at h
    have hrc : rc = -1 := by injection h with h; exact h.symm
    subst hrc
    refine ⟨Or.inl rfl, ⟨fun h0 => absurd h0 (by decide), fun h0 => ?_⟩, fun _ _ _ => rfl⟩
    rw [hst] at h0
    exact absurd h0.2 (by decide)
  · rw [hout] at h
    have hrc : rc = -1 := by injection h with h; exact h.symm
    subst hrc
    refine ⟨Or.inl rfl, ⟨fun h0 => absurd h0 (by decide), fun h0 => ?_⟩, fun _ _ _ => rfl⟩
    rw [hst] at h0
    exact absurd h0.2 (by decide)
  · rw [hout] at h
    have hrc : rc = -1 := by injection h with h; exact h.symm
    subst hrc
    refine ⟨Or.inl rfl, ⟨fun h0 => absurd h0 (by decide), fun h0 => ?_⟩, fun _ _ _ => rfl⟩
    rw [hst] at h0
    exact absurd h0.2 (by decide)
  · rw [hout] at h
    cases hb : w.bootz with
    | none =>
      rw [hb] at h
      exact Outcome.noConfusion h
    | some b =>
      rw [hb] at h
      by_cases hb0 : b = 0
      · subst hb0
        simp only [ne_eq, not_true_eq_false, if_false] at h
        have hrc : rc = 0 := by injection h with h; exact h.symm
        subst hrc
        refine ⟨Or.inr rfl, ⟨fun _ => ⟨rfl, hst⟩, fun _ => rfl⟩, ?_⟩
        intro b hb1 hb2
        simp only [Option.some.injEq] at hb1
        exact absurd hb1.symm hb2
      · simp only [ne_eq, hb0, not_false_eq_true, if_true] at h
        have hrc : rc = -1 := by injection h with h; exact h.symm
        subst hrc
        refine ⟨Or.inl rfl, ⟨fun h0 => absurd h0 (by decide), fun h0 => ?_⟩, fun _ _ _ => rfl⟩
        simp only [Option.some.injEq] at h0
        exact absurd h0.1 hb0

/-- Witness of C12 as amended: `bootz` returns 1 and `wpl_cmd` returns -1; `bootz`
returns 0 and `wpl_cmd` returns 0. -/
theorem wpl_cmd_return_status_witness :
    (wpl_cmd ((World.sample [(1, cstr "Alpine")] fun _ => none).with_bootz 1) 1 os_list_zero
        State.init).1 = Outcome.returned (-1) ∧
      ((-1 : Int) = -1 ∨ (-1 : Int) = 0) ∧
      (((0 : Int) = 0) ↔
        ((World.sample [(1, cstr "Alpine")] fun _ => none).with_bootz 0).bootz = some 0 ∧
          stages (wpl_calls ((World.sample [(1, cstr "Alpine")] fun _ => none).with_bootz 0) 1
            os_list_zero State.init) = pipeline) :=
  ⟨by decide,
    (wpl_cmd_return_status ((World.sample [(1, cstr "Alpine")] fun _ => none).with_bootz 1) 1
      os_list_zero State.init (-1) (by decide)).1,
    (wpl_cmd_return_status ((World.sample [(1, cstr "Alpine")] fun _ => none).with_bootz 0) 1
      os_list_zero State.init 0 (by decide)).2.1⟩

/-! ## The bound, the early exit and the countdown of `master_sleep` -/

/-- Claim C13, the run that contradicts it: on a silent console one call of
`master_sleep` returns 0 after 199 polls, each after one sleep of 100 ms (19.9
seconds in total), not after 200. -/
theorem master_sleep_silent_polls :
    (master_sleep (World.sample [] fun _ => none) State.init).1 = 0 ∧
      (master_sleep (World.sample [] fun _ => none) State.init).2.polls = 199 ∧
      (master_sleep (World.sample [] fun _ => none) State.init).2.trace.count (Event.mdelay 100)
        = 199 ∧
      (master_sleep (World.sample [] fun _ => none) State.init).2.trace.count Event.tstc
        = 199 := by
  refine ⟨by decide, by decide, by decide, by decide⟩

/-- Claim C14: when the first qualifying character `c` is found by poll number `p`
of the call, one of its 199 polls, `master_sleep` makes exactly `p` polls: the
`p - 1` iterations before it run without ending the loop, then poll `p` reads `c`
and nothing is read after it. The value returned is `c`, or `'1'` when `c` is a
space or a carriage return. -/
theorem master_sleep_first_qualifying (w : World) (s : State) (p : Nat) (c : Int)
    (h1 : 1 ≤ p) (h199 : p ≤ 199)
    (hnq : ∀ t, t < p - 1 → qualifying (w.console (s.polls + t)) = false)
    (hc : w.console (s.polls + (p - 1)) = some c) (hq : c = 32 ∨ c = 13 ∨ c > 32) :
    (master_sleep w s).1 = (if c = 32 ∨ c = 13 then 49 else c) ∧
      (master_sleep w s).2.polls = s.polls + p ∧
      (master_sleep w s).2.trace = s.trace ++ sleep_calls w s.polls (p - 1) 0 ++
        [Event.mdelay 100, Event.tstc, Event.getc] ∧
      ((master_sleep w s).2.trace.drop s.trace.length).count Event.tstc = p ∧
      ((master_sleep w s).2.trace.drop s.trace.length).count Event.getc =
        (sleep_calls w s.polls (p - 1) 0).count Event.getc + 1 := by
  have hqual : qualifying (some c) = true := by
    simp only [qualifying, Bool.or_eq_true, decide_eq_true_eq]
    omega
  have hnq1 : ∀ t, t < p - 1 → qualifying (w.console (s.polls + t)) = false := hnq
  have hhit := master_sleep_hit w s (p - 1) c (by omega) hnq1 hc hqual
  have htr := master_sleep_trace_hit w s (p - 1) c (by omega) hnq1 hc hqual
  refine ⟨hhit.1, ?_, htr, ?_, ?_⟩
  · rw [hhit.2]; omega
  · rw [htr, List.append_assoc, drop_own_length, List.count_append, tstc_count_sleep_calls]
    have : (poll_calls (some c)).count Event.tstc = 1 := rfl
    rw [this]; omega
  · rw [htr, List.append_assoc, drop_own_length, List.count_append]
    rfl

/-- Witness of C14: a tab at poll 2, then `7` at poll 4 and `9` at poll 5: four
polls are made and `7` is returned; a carriage return at poll 1 gives `'1'`. -/
theorem master_sleep_first_qualifying_witness :
    ((master_sleep (World.sample [] fun n => if n = 1 then some 9 else if n = 3 then some 55
          else if n = 4 then some 57 else none) State.init).1 = 55 ∧
        (master_sleep (World.sample [] fun n => if n = 1 then some 9 else if n = 3 then some 55
          else if n = 4 then some 57 else none) State.init).2.polls = 4) ∧
      (master_sleep (World.sample [] fun _ => some 13) State.init).1 = 49 :=
  ⟨⟨(master_sleep_first_qualifying (World.sample [] fun n => if n = 1 then some 9 else
        if n = 3 then some 55 else if n = 4 then some 57 else none) State.init 4 55 (by decide)
        (by decide) (by decide) (by decide) (by decide)).1,
      (master_sleep_first_qualifying (World.sample [] fun n => if n = 1 then some 9 else
        if n = 3 then some 55 else if n = 4 then some 57 else none) State.init 4 55 (by decide)
        (by decide) (by decide) (by decide) (by decide)).2.1⟩,
    (master_sleep_first_qualifying (World.sample [] fun _ => some 13) State.init 1 13
      (by decide) (by decide) (by decide) (by decide) (by decide)).1⟩

/-- Claim C15: let `q` be the number of iterations of a call of `master_sleep`
whose poll does not end the loop (the polls before the first qualifying
character, or all 199). The calls of the call are those `q` iterations, in which
iteration `j` prints a countdown message exactly when `j` is a multiple of 10,
with the value `20 - j / 10`, followed by the poll that ends the loop if there is
one. The values printed are therefore 19, 18, ... down to `20 - q / 10`, which is
at least 1. -/
theorem master_sleep_countdown (w : World) (s : State) (q : Nat) (hq : q ≤ 199)
    (hnq : ∀ i, i < q → qualifying (w.console (s.polls + i)) = false)
    (hend : q = 199 ∨ qualifying (w.console (s.polls + q)) = true) :
    (master_sleep w s).2.trace = s.trace ++ sleep_calls w s.polls q 0 ++
        (if q < 199 then poll_calls (w.console (s.polls + q)) else []) ∧
      (∀ t, printed (iteration_calls w s.polls t) =
        if (t + 1) % 10 = 0 then [countdown_text (20 - (((t + 1) / 10 : Nat) : Int))] else []) ∧
      printed ((master_sleep w s).2.trace.drop s.trace.length) =
        (List.range' 1 (q / 10)).map (fun (i : Nat) => countdown_text (20 - (i : Int))) ∧
      (∀ i, i ∈ List.range' 1 (q / 10) → (1 : Int) ≤ 20 - (i : Int) ∧ 20 - (i : Int) ≤ 19) := by
  have htrace : (master_sleep w s).2.trace = s.trace ++ sleep_calls w s.polls q 0 ++
      (if q < 199 then poll_calls (w.console (s.polls + q)) else []) := by
    by_cases hlt : q < 199
    · rw [if_pos hlt]
      have hqual : qualifying (w.console (s.polls + q)) = true := by
        rcases hend with h | h
        · omega
        · exact h
      cases hcon : w.console (s.polls + q) with
      | none => rw [hcon] at hqual; exact absurd hqual (by decide)
      | some c =>
        rw [hcon] at hqual
        exact master_sleep_trace_hit w s q c hlt hnq hcon hqual
    · rw [if_neg hlt]
      have hq199 : q = 199 := by omega
      subst hq199
      rw [List.append_nil]
      exact master_sleep_trace_miss w s hnq
  refine ⟨htrace, printed_iteration_calls w s.polls, ?_, ?_⟩
  · rw [htrace, List.append_assoc, drop_own_length, printed_append, printed_sleep_calls]
    have htail : printed (if q < 199 then poll_calls (w.console (s.polls + q)) else []) = [] := by
      split
      · exact printed_poll_calls _
      · rfl
    rw [htail, List.append_nil]
    simp
  · intro i hi
    rw [List.mem_range'_1] at hi
    omega

/-- Witness of C15: on a silent console the 19 messages count down from 19 to 1;
with `3` typed at poll 26 only 19 and 18 are printed. -/
theorem master_sleep_countdown_witness :
    printed ((master_sleep (World.sample [] fun _ => none) State.init).2.trace.drop
        State.init.trace.length) =
        (List.range' 1 (199 / 10)).map (fun (i : Nat) => countdown_text (20 - (i : Int))) ∧
      printed ((master_sleep (World.sample [] fun n => if n = 25 then some 51 else none)
        State.init).2.trace.drop State.init.trace.length) =
        (List.range' 1 (25 / 10)).map (fun (i : Nat) => countdown_text (20 - (i : Int))) ∧
      printed (master_sleep (World.sample [] fun n => if n = 25 then some 51 else none)
        State.init).2.trace = [countdown_text 19, countdown_text 18] :=
  ⟨(master_sleep_countdown (World.sample [] fun _ => none) State.init 199 (by decide)
      (fun _ _ => rfl) (Or.inl rfl)).2.2.1,
    (master_sleep_countdown (World.sample [] fun n => if n = 25 then some 51 else none)
      State.init 25 (by decide) (by decide) (Or.inr (by decide))).2.2.1,
    by decide⟩

/-! ## The labels of the menu -/

theorem menu_lines_entry (len : Int) (os_list : Nat → os_liste) (i : Nat) (h1 : 1 ≤ i)
    (hlen : (i : Int) ≤ len) :
    (menu_lines len os_list)[i - 1]? =
      some (Event.printf (fmt_15x (i : Int) ++ cstr " " ++ (os_list (i - 1)).display_string ++
        cstr "\n")) := by
  have hlt : i - 1 < len.toNat := by omega
  have hcast : (((i - 1 : Nat) : Int) + 1) = (i : Int) := by omega
  unfold menu_lines
  rw [List.getElem?_map, List.getElem?_range hlt, Option.map_some', hcast]

theorem display_menu_first_key (w : World) (len : Int) (os_list : Nat → os_liste) (fuel : Nat)
    (s : State) (c v : Nat) (hv : hex_digit_value c = some v) (h1 : 1 ≤ v)
    (hlen : (v : Int) ≤ len) (hc : w.console s.polls = some (c : Int)) :
    (display_menu w len os_list (fuel + 1) s).1 = some (v : Int) := by
  have hq := hex_digit_qualifying c v hv
  have hms := master_sleep_hit w (render_menu len os_list s) 0 (c : Int) (by omega)
    (fun t ht => absurd ht (by omega)) (by simpa using hc) hq.1
  rw [hq.2] at hms
  rw [display_menu_succ, hms.1, parse_selection_hex c v hv, if_pos ⟨by omega, hlen⟩]

/-- Claim C16: for a position `i` in 1..15 the label printed by `display_menu` is
14 spaces followed by the single character that `%x` gives for `i`: the digit
`0 + i` below 10 and the letter `a + (i - 10)` from 10 on. That character parses
in base 16 back to `i`, and typed as the first key of a round with at least `i`
entries it makes `display_menu` return `i`. -/
theorem menu_label_round_trip (w : World) (len : Int) (os_list : Nat → os_liste) (fuel : Nat)
    (s : State) (i : Nat) (h1 : 1 ≤ i) (h15 : i ≤ 15) :
    fmt_x (i : Int) = [if i < 10 then 48 + i else 97 + (i - 10)] ∧
      fmt_15x (i : Int) = List.replicate 14 32 ++ [if i < 10 then 48 + i else 97 + (i - 10)] ∧
      parse_selection ((if i < 10 then 48 + i else 97 + (i - 10) : Nat) : Int) = (i : Int) ∧
      ((i : Int) ≤ len →
        (menu_lines len os_list)[i - 1]? =
          some (Event.printf (fmt_15x (i : Int) ++ cstr " " ++
            (os_list (i - 1)).display_string ++ cstr "\n")) ∧
        (w.console s.polls = some ((if i < 10 then 48 + i else 97 + (i - 10) : Nat) : Int) →
          (display_menu w len os_list (fuel + 1) s).1 = some (i : Int))) := by
  have hv : hex_digit_value (if i < 10 then 48 + i else 97 + (i - 10)) = some i := by
    interval_cases i <;> rfl
  refine ⟨?_, ?_, ?_, fun hlen => ⟨menu_lines_entry len os_list i h1 hlen, fun hc => ?_⟩⟩
  · interval_cases i <;> rfl
  · interval_cases i <;> rfl
  · exact parse_selection_hex _ i hv
  · exact display_menu_first_key w len os_list fuel s _ i hv h1 hlen hc

/-- Witness of C16: position 12 of a menu of 15 entries is labelled `c`, and the
key `c` selects entry 12. -/
theorem menu_label_round_trip_witness :
    fmt_x 12 = cstr "c" ∧ fmt_15x 12 = cstr "              c" ∧
      parse_selection 99 = 12 ∧
      (display_menu (World.sample [] fun _ => some 99) 15 os_list_blank 1 State.init).1
        = some 12 :=
  ⟨(menu_label_round_trip (World.sample [] fun _ => some 99) 15 os_list_blank 0 State.init 12
      (by decide) (by decide)).1.trans (by decide),
    (menu_label_round_trip (World.sample [] fun _ => some 99) 15 os_list_blank 0 State.init 12
      (by decide) (by decide)).2.1.trans (by decide),
    (menu_label_round_trip (World.sample [] fun _ => some 99) 15 os_list_blank 0 State.init 12
      (by decide) (by decide)).2.2.1,
    ((menu_label_round_trip (World.sample [] fun _ => some 99) 15 os_list_blank 0 State.init 12
      (by decide) (by decide)).2.2.2 (by decide)).2 (by decide)⟩

/-! ## The bounds of the scan -/

/-- Claim C18, the runs that contradict it. First run: partition 1 is the only ext4
partition and the string at its label field is 30 bytes long, a label that fills
its 16 bytes followed by the mount point `/mnt/backup/xy`. The scan returns 1, yet
`strcpy` has written beyond entry 0: entry 1 now starts with `xy`. Second run:
partitions 1 to 15 are all ext4 and the string of partition 15 is 60 bytes long.
The scan returns 15, and the copy into entry 14 has run through entry 15, which
starts at the offset 420, and past the end of the array, whose last byte has the
offset 447: the bytes at 420 and 448 were 0 and hold `t` and `6` of the mount
point. -/
theorem gather_partition_info_overrun :
    (cstr "ABCDEFGHIJKLMNOP/mnt/backup/xy").length = 30 ∧
      (gather_partition_info (World.sample [(1, cstr "ABCDEFGHIJKLMNOP/mnt/backup/xy")]
        fun _ => none) os_list_zero State.init).1 = 1 ∧
      (os_list_entries os_list_zero 1).display_string = [] ∧
      (os_list_entries (gather_partition_info
        (World.sample [(1, cstr "ABCDEFGHIJKLMNOP/mnt/backup/xy")] fun _ => none)
        os_list_zero State.init).2.1 1).display_string = cstr "xy" ∧
      (cstr "ABCDEFGHIJKLMNOP/media/operator/external-backup-disk-2016-08").length = 60 ∧
      (gather_partition_info (World.sample fifteen_partitions fun _ => none) os_list_zero
        State.init).1 = 15 ∧
      (os_list_entries (gather_partition_info (World.sample fifteen_partitions fun _ => none)
        os_list_zero State.init).2.1 14).boot_partition = cstr "/dev/sda15" ∧
      os_list_zero 420 = 0 ∧
      (gather_partition_info (World.sample fifteen_partitions fun _ => none) os_list_zero
        State.init).2.1 420 = 116 ∧
      os_list_zero 448 = 0 ∧
      (gather_partition_info (World.sample fifteen_partitions fun _ => none) os_list_zero
        State.init).2.1 448 = 54 := by
  refine ⟨by decide, by decide, by decide, by decide, by decide, by decide, by decide,
    by decide, by decide, by decide, by decide⟩

/-! ## The environment after the command -/

theorem wpl_cmd_env (w : World) (fuel : Nat) (os_list : Memory) (s : State) :
    (((wpl_menu w fuel os_list s).1 = none ∨ w.run_command load_fdt_cmd ≠ 0 ∨
        w.run_command load_kernel_cmd ≠ 0) → (wpl_cmd w fuel os_list s).2.env = s.env) ∧
      (∀ n, (wpl_menu w fuel os_list s).1 = some n → w.run_command load_fdt_cmd = 0 →
        w.run_command load_kernel_cmd = 0 →
        (wpl_cmd w fuel os_list s).2.env (cstr "bootargs") =
            some (bootargs (wpl_chosen w os_list s n) (s.env (cstr "usbethaddr"))) ∧
          ∀ name, name ≠ cstr "bootargs" → (wpl_cmd w fuel os_list s).2.env name = s.env name) := by
  obtain ⟨_, _, _, henv0⟩ := wpl_menu_quiet w fuel os_list s
  constructor
  · intro h
    cases hm : (wpl_menu w fuel os_list s).1 with
    | none => rw [wpl_cmd_none w fuel os_list s hm]; exact henv0
    | some n =>
      rw [wpl_cmd_some w fuel os_list s n hm]
      rcases h with h | h | h
      · rw [hm] at h; exact absurd h (by simp)
      · rw [(boot_steps_fdt_fail w _ _ n _ h).2.1, henv0]
      · by_cases hf : w.run_command load_fdt_cmd = 0
        · rw [(boot_steps_kernel_fail w _ _ n _ hf h).2.1, henv0]
        · rw [(boot_steps_fdt_fail w _ _ n _ hf).2.1, henv0]
  · intro n hm hf hk
    rw [wpl_cmd_some w fuel os_list s n hm]
    obtain ⟨h1, h2, _⟩ := boot_steps_loaded w (wpl_scan w os_list s).2.1
      (s.env (cstr "usbethaddr")) n (wpl_menu w fuel os_list s).2 hf hk
    refine ⟨h1, fun name hname => ?_⟩
    rw [h2 name hname, henv0]

/-- Claim C17: in a run of `wpl_cmd` the variable `bootargs` is set exactly when
the menu returned a selection and the descriptor load and the kernel load both
returned 0. Otherwise the environment is left as it was. When it is set, the
environment after the run, whatever the marker check and the handoff do, holds
the parameter string of the chosen candidate in `bootargs` and is unchanged
elsewhere; in particular a run that then fails on the marker check returns -1
with `bootargs` overwritten. -/
theorem wpl_cmd_bootargs_frame (w : World) (fuel : Nat) (os_list : Memory) (s : State) :
    (Stage.set_bootargs ∈ stages (wpl_calls w fuel os_list s) ↔
        (∃ n, (wpl_menu w fuel os_list s).1 = some n) ∧ w.run_command load_fdt_cmd = 0 ∧
          w.run_command load_kernel_cmd = 0) ∧
      (((wpl_menu w fuel os_list s).1 = none ∨ w.run_command load_fdt_cmd ≠ 0 ∨
        w.run_command load_kernel_cmd ≠ 0) → (wpl_cmd w fuel os_list s).2.env = s.env) ∧
      (∀ n, (wpl_menu w fuel os_list s).1 = some n → w.run_command load_fdt_cmd = 0 →
        w.run_command load_kernel_cmd = 0 →
        (wpl_cmd w fuel os_list s).2.env (cstr "bootargs") =
            some (bootargs (wpl_chosen w os_list s n) (s.env (cstr "usbethaddr"))) ∧
          (∀ name, name ≠ cstr "bootargs" →
            (wpl_cmd w fuel os_list s).2.env name = s.env name) ∧
          (wpl_marker w os_list s n ≠ 1 →
            (wpl_cmd w fuel os_list s).1 = Outcome.returned (-1)) ∧
          (∀ b, wpl_marker w os_list s n = 1 → w.bootz = some b → b ≠ 0 →
            (wpl_cmd w fuel os_list s).1 = Outcome.returned (-1))) := by
  obtain ⟨henv1, henv2⟩ := wpl_cmd_env w fuel os_list s
  have hcases := wpl_cmd_stages w fuel os_list s
  refine ⟨?_, henv1, ?_⟩
  · rcases hcases with ⟨hm, _, hst⟩ |
      ⟨n, hm, ⟨hf, _, hst⟩ | ⟨hf, hk, _, hst⟩ | ⟨hf, hk, _, _, hst⟩ | ⟨hf, hk, _, hst, _⟩⟩
    · rw [hst, hm]
      simp
    · rw [hst]
      constructor
      · intro h; exact absurd h (by decide)
      · rintro ⟨_, hf0, _⟩; exact absurd hf0 hf
    · rw [hst]
      constructor
      · intro h; exact absurd h (by decide)
      · rintro ⟨_, _, hk0⟩; exact absurd hk0 hk
    · rw [hst]
      exact ⟨fun _ => ⟨⟨n, hm⟩, hf, hk⟩, fun _ => by decide⟩
    · rw [hst]
      exact ⟨fun _ => ⟨⟨n, hm⟩, hf, hk⟩, fun _ => by decide⟩
  · intro n hm hf hk
    obtain ⟨h1, h2⟩ := henv2 n hm hf hk
    refine ⟨h1, h2, ?_, ?_⟩
    · intro hmark
      rcases hcases with ⟨hm0, _, _⟩ |
        ⟨n1, hm1, ⟨hf1, _, _⟩ | ⟨_, hk1, _, _⟩ | ⟨_, _, _, hout, _⟩ | ⟨_, _, he, _, _⟩⟩
      · rw [hm] at hm0; exact absurd hm0 (by simp)
      · exact absurd hf hf1
      · exact absurd hk hk1
      · exact hout
      · rw [hm] at hm1
        simp only [Option.some.injEq] at hm1
        subst hm1
        exact absurd he hmark
    · intro b hmark hb hb0
      rcases hcases with ⟨hm0, _, _⟩ |
        ⟨n1, hm1, ⟨hf1, _, _⟩ | ⟨_, hk1, _, _⟩ | ⟨_, _, he, _, _⟩ | ⟨_, _, _, _, hout⟩⟩
      · rw [hm] at hm0; exact absurd hm0 (by simp)
      · exact absurd hf hf1
      · exact absurd hk hk1
      · rw [hm] at hm1
        simp only [Option.some.injEq] at hm1
        subst hm1
        exact absurd hmark he
      · rw [hout, hb]
        simp only [ne_eq, hb0, not_false_eq_true, if_true]

/-- Witness of C17: partitions 1 and 4, the key `2`, and no `/etc/fstab`: the run
returns -1 and leaves `bootargs` set for `/dev/sda4`; when the kernel load fails
instead, `bootargs` stays unset. -/
theorem wpl_cmd_bootargs_frame_witness :
    ((wpl_cmd ((World.sample [(1, cstr "Alpine"), (4, cstr "Debian")]
          fun n => if n = 0 then some 50 else none).without_marker) 1 os_list_zero
          State.init).2.env (cstr "bootargs") =
        some (bootargs (wpl_chosen ((World.sample [(1, cstr "Alpine"), (4, cstr "Debian")]
          fun n => if n = 0 then some 50 else none).without_marker) os_list_zero State.init 2)
          (State.init.env (cstr "usbethaddr")))) ∧
      (wpl_cmd ((World.sample [(1, cstr "Alpine"), (4, cstr "Debian")]
          fun n => if n = 0 then some 50 else none).without_marker) 1 os_list_zero
          State.init).1 = Outcome.returned (-1) ∧
      (wpl_cmd ((World.sample [(1, cstr "Alpine"), (4, cstr "Debian")]
          fun n => if n = 0 then some 50 else none).without_marker) 1 os_list_zero
          State.init).2.env (cstr "bootargs") =
        some (bootargs_head ++ cstr "root=/dev/sda4 smsc95xx.macaddr=<NULL>") ∧
      (wpl_cmd ((World.sample [(1, cstr "Alpine"), (4, cstr "Debian")]
          fun n => if n = 0 then some 50 else none).with_kernel_load 1) 1 os_list_zero
          State.init).2.env = State.init.env :=
  ⟨((wpl_cmd_bootargs_frame ((World.sample [(1, cstr "Alpine"), (4, cstr "Debian")]
      fun n => if n = 0 then some 50 else none).without_marker) 1 os_list_zero
      State.init).2.2 2 (by decide) (by decide) (by decide)).1,
    ((wpl_cmd_bootargs_frame ((World.sample [(1, cstr "Alpine"), (4, cstr "Debian")]
      fun n => if n = 0 then some 50 else none).without_marker) 1 os_list_zero
      State.init).2.2 2 (by decide) (by decide) (by decide)).2.2.1 (by decide),
    by decide,
    (wpl_cmd_bootargs_frame ((World.sample [(1, cstr "Alpine"), (4, cstr "Debian")]
      fun n => if n = 0 then some 50 else none).with_kernel_load 1) 1 os_list_zero
      State.init).2.1 (Or.inr (Or.inr (by decide)))⟩

end MultiBoot2
